import Mathlib

/-!
Formal model of the combat core of a small third-person action game
(player finite-state controller, enemy steering, combat resolution and the
per-frame game loop), shallowly embedded over the real numbers.

The model follows the TypeScript sources:
  * `src/entities/Player.ts`  (first class in the file; the variant the
    orchestrator in `src/core/Game.ts` actually instantiates — it calls
    `player.takeDamage(1)` with one argument and `player.update` with six),
  * the `Enemy` class (concatenated into `src/core/SoundManager.ts`),
  * `src/core/Game.ts` (the orchestrator), and
  * `src/core/InputManager.ts`.

JavaScript `number` values are modelled as real numbers.  three.js vector
operations used by the sources are reproduced faithfully, including the
`length() || 1` zero-length guard inside `Vector3.normalize`.  Ray casting
against obstacle meshes is a geometry primitive the game merely consumes
(`THREE.Raycaster`), so it is kept abstract: a `World` carries the function
that returns the sorted hit-distance list for a ray, exactly what
`Raycaster.intersectObjects` hands back to `Player.checkCollision`.
Animation mixers, materials, sounds and DOM/UI access are external
collaborators; of those only what gameplay logic reads or writes is kept
(`mesh.visible` blinking, death poses, the fact that the whole `update`
body is guarded by `if (!this.mixer) return`).
-/

namespace TPS

noncomputable section

open scoped Classical

/-! ## three.js `Vector3` fragment used by the game -/

/-- A 3D vector with real components, standing for `THREE.Vector3`. -/
structure Vec3 where
  x : ℝ
  y : ℝ
  z : ℝ

namespace Vec3

@[ext] theorem ext_fields {a b : Vec3}
    (hx : a.x = b.x) (hy : a.y = b.y) (hz : a.z = b.z) : a = b := by
  cases a; cases b; simp_all

def add (a b : Vec3) : Vec3 := ⟨a.x + b.x, a.y + b.y, a.z + b.z⟩

def sub (a b : Vec3) : Vec3 := ⟨a.x - b.x, a.y - b.y, a.z - b.z⟩

def smul (c : ℝ) (v : Vec3) : Vec3 := ⟨c * v.x, c * v.y, c * v.z⟩

/-- `a.addScaledVector v s` of three.js: `a + s • v`. -/
def addScaled (a v : Vec3) (s : ℝ) : Vec3 := a.add (smul s v)

def dot (a b : Vec3) : ℝ := a.x * b.x + a.y * b.y + a.z * b.z

/-- `a.crossVectors`-style cross product. -/
def cross (a b : Vec3) : Vec3 :=
  ⟨a.y * b.z - a.z * b.y, a.z * b.x - a.x * b.z, a.x * b.y - a.y * b.x⟩

/-- `Vector3.length`. -/
def length (v : Vec3) : ℝ := Real.sqrt (v.x ^ 2 + v.y ^ 2 + v.z ^ 2)

/-- `Vector3.normalize` of three.js divides by `length() || 1`, so the zero
vector is returned unchanged. -/
def normalize (v : Vec3) : Vec3 :=
  if v.length = 0 then v else smul (1 / v.length) v

/-- `a.distanceTo b`. -/
def distanceTo (a b : Vec3) : ℝ := (a.sub b).length

def zero : Vec3 := ⟨0, 0, 0⟩

theorem length_nonneg (v : Vec3) : 0 ≤ v.length := Real.sqrt_nonneg _

theorem length_eq_zero_iff (v : Vec3) : v.length = 0 ↔ v = zero := by
  constructor
  · intro h
    have hsum : v.x ^ 2 + v.y ^ 2 + v.z ^ 2 ≤ 0 := Real.sqrt_eq_zero'.mp h
    have hx : v.x = 0 := by nlinarith [sq_nonneg v.x, sq_nonneg v.y, sq_nonneg v.z]
    have hy : v.y = 0 := by nlinarith [sq_nonneg v.x, sq_nonneg v.y, sq_nonneg v.z]
    have hz : v.z = 0 := by nlinarith [sq_nonneg v.x, sq_nonneg v.y, sq_nonneg v.z]
    exact ext_fields hx hy hz
  · intro h
    subst h
    simp [length, zero]

theorem normalize_ne_zero {v : Vec3} (h : v ≠ zero) : v.normalize ≠ zero := by
  have hL : v.length ≠ 0 := fun h0 => h ((length_eq_zero_iff v).mp h0)
  intro hn
  apply h
  have hc : (1 / v.length) * v.x = 0 ∧ (1 / v.length) * v.y = 0 ∧
      (1 / v.length) * v.z = 0 := by
    simpa [normalize, hL, smul, zero, Vec3.mk.injEq] using hn
  have hinv : (1 / v.length) ≠ 0 := one_div_ne_zero hL
  refine ext_fields ?_ ?_ ?_ <;> simp only [zero]
  · exact (mul_eq_zero.mp hc.1).resolve_left hinv
  · exact (mul_eq_zero.mp hc.2.1).resolve_left hinv
  · exact (mul_eq_zero.mp hc.2.2).resolve_left hinv

end Vec3

/-- Rotation of a vector by a yaw angle about the Y axis, i.e.
`v.applyEuler(rotation)` for a rotation whose `x` and `z` components are
zero.  Every call site in the sources satisfies this: the player's
`rotation.x` is only ever set by the death pose, after which the controller
stops running, and the enemy's orientation is produced by a horizontal
`lookAt`. -/
def yawApply (rotY : ℝ) (v : Vec3) : Vec3 :=
  ⟨v.x * Real.cos rotY + v.z * Real.sin rotY,
   v.y,
   -v.x * Real.sin rotY + v.z * Real.cos rotY⟩

/-- JavaScript `Math.atan2 y x`. -/
def atan2 (y x : ℝ) : ℝ :=
  if 0 < x then Real.arctan (y / x)
  else if x < 0 then
    (if 0 ≤ y then Real.arctan (y / x) + Real.pi else Real.arctan (y / x) - Real.pi)
  else
    (if 0 < y then Real.pi / 2 else if y < 0 then -(Real.pi / 2) else 0)

/-- The two `while` loops of `Player.rotateToDirection` that bring an angle
difference into `[-π, π]`. -/
def wrapPi (d : ℝ) : ℝ :=
  if Real.pi < d then d - 2 * Real.pi * ⌈(d - Real.pi) / (2 * Real.pi)⌉
  else if d < -Real.pi then d + 2 * Real.pi * ⌈(-Real.pi - d) / (2 * Real.pi)⌉
  else d

/-! ## Input intent (`InputManager`) -/

/-- The fields of `InputManager` that the rest of the game reads. -/
structure InputState where
  moveX : ℝ
  moveY : ℝ
  lookX : ℝ
  lookY : ℝ
  isAttackPressed : Bool
  isRollPressed : Bool

/-- Ambient per-frame device state sampled by `InputManager.update` (which
keys are currently held) together with the camera's world direction, which
`Player.calculateMoveDirection` reads via `camera.getWorldDirection`.  The
camera controller itself is an external collaborator. -/
structure FrameEnv where
  keyW : Bool
  keyS : Bool
  keyA : Bool
  keyD : Bool
  keySpace : Bool
  camForward : Vec3

/-- `InputManager.update()`: keyboard axes override the current
`moveVector` whenever at least one directional key is held, with diagonal
input normalized to unit length; a held space bar latches
`isRollPressed`. -/
def inputUpdate (env : FrameEnv) (s : InputState) : InputState :=
  let y : ℝ := (if env.keyW then -1 else 0) + (if env.keyS then 1 else 0)
  let x : ℝ := (if env.keyA then -1 else 0) + (if env.keyD then 1 else 0)
  let hasKeyInput := env.keyW ∨ env.keyS ∨ env.keyA ∨ env.keyD
  let len := Real.sqrt (x * x + y * y)
  let nx := if x ≠ 0 ∨ y ≠ 0 then x / len else x
  let ny := if x ≠ 0 ∨ y ≠ 0 then y / len else y
  let s := if hasKeyInput then { s with moveX := nx, moveY := ny } else s
  if env.keySpace then { s with isRollPressed := true } else s

/-- `InputManager.reset()`: zero the accumulated look delta. -/
def inputReset (s : InputState) : InputState :=
  { s with lookX := 0, lookY := 0 }

/-! ## Enemy (`Enemy` class, concatenated into `src/core/SoundManager.ts`) -/

/-- State of one enemy.  `forward` is the unit forward vector implied by
`mesh.rotation` (the mesh starts unrotated, so it starts at `(0,0,1)`, and
`lookAt` with a level target keeps it horizontal); `fallen` records the
one-time death pose `rotation.x = π/2`; `mixerLoaded` records whether the
asynchronous GLTF load has completed and assigned `this.mixer`. -/
structure Enemy where
  position : Vec3
  forward : Vec3
  fallen : Bool
  hp : ℝ
  isDead : Bool
  mixerLoaded : Bool

/-- A freshly constructed enemy at `pos` (model not yet loaded). -/
def Enemy.spawn (pos : Vec3) : Enemy :=
  { position := pos, forward := ⟨0, 0, 1⟩, fallen := false, hp := 1,
    isDead := false, mixerLoaded := false }

/-- `Enemy.takeDamage` / `Enemy.die`. -/
def Enemy.takeDamage (e : Enemy) : Enemy :=
  if e.isDead then e
  else
    let e := { e with hp := e.hp - 1 }
    if e.hp ≤ 0 then
      { e with isDead := true, fallen := true,
               position := { e.position with y := 0.5 } }
    else e

/-- The forward vector produced by `mesh.lookAt(t.x, mesh.position.y, t.z)`
followed by `(0,0,1).applyEuler(mesh.rotation)`: the horizontal part of the
look direction, normalized; three.js `Matrix4.lookAt` falls back to
`(0,0,1)` when the look direction is degenerate. -/
def lookAtForward (dir : Vec3) : Vec3 :=
  let h : Vec3 := ⟨dir.x, 0, dir.z⟩
  if h.length = 0 then ⟨0, 0, 1⟩ else h.normalize

/-- The separation accumulation loop of `Enemy.update`: fold over the
enemy roster (`allEnemies`, carried with its array indices so that the
`other === this` identity test can be expressed as an index test), summing
a repulsion `push` weighted by `(separationRange − d) / separationRange`
for every other live enemy strictly inside `separationRange = 2.5`, and
counting the contributors. -/
def Enemy.separation (i : ℕ) (e : Enemy) (all : List (ℕ × Enemy)) :
    Vec3 × ℕ :=
  all.foldl
    (fun acc other =>
      if other.1 = i ∨ other.2.isDead then acc
      else
        let dN := e.position.distanceTo other.2.position
        if dN < 2.5 then
          let push := (e.position.sub other.2.position).normalize
          (acc.1.addScaled push ((2.5 - dN) / 2.5), acc.2 + 1)
        else acc)
    (Vec3.zero, 0)

/-- The combined heading of `Enemy.update`: seek vector toward the player,
plus `1.5 ×` the averaged separation when at least one neighbour
contributed, renormalized. -/
def Enemy.heading (i : ℕ) (e : Enemy) (playerPos : Vec3)
    (all : List (ℕ × Enemy)) : Vec3 :=
  let dir := (playerPos.sub e.position).normalize
  let sc := Enemy.separation i e all
  if 0 < sc.2 then
    (dir.addScaled (Vec3.smul (1 / (sc.2 : ℝ)) sc.1) 1.5).normalize
  else dir

/-- `Enemy.update(dt, playerPosition, allEnemies)`.  `i` is this enemy's
index in the roster array, used for the `other === this` test. -/
def Enemy.update (dt : ℝ) (playerPos : Vec3) (all : List (ℕ × Enemy))
    (i : ℕ) (e : Enemy) : Enemy :=
  if e.mixerLoaded = false then e
  else if e.isDead then e
  else
    let dist := e.position.distanceTo playerPos
    if dist ≤ 15 ∧ 2 < dist then
      let dir := Enemy.heading i e playerPos all
      let fwd := lookAtForward dir
      { e with forward := fwd,
               position := e.position.addScaled fwd (3.5 * dt) }
    else e

/-! ## Player (`Player` class of `src/entities/Player.ts`) -/

inductive PState where
  | Idle
  | Run
  | Roll
  | Attack
  | Dead
deriving DecidableEq, Repr

/-- State of the player.  `rotX` is `mesh.rotation.x` (written only by the
death pose), `rotY` the yaw `mesh.rotation.y`; `childRotX` is the roll
tumble applied to `mesh.children[0]`, which exists exactly when the model
has loaded. -/
structure Player where
  position : Vec3
  rotX : ℝ
  rotY : ℝ
  childRotX : ℝ
  visible : Bool
  hp : ℝ
  state : PState
  stateTimer : ℝ
  moveDirection : Vec3
  isInvincible : Bool
  invincibleTimer : ℝ
  hasHitAttacked : Bool
  mixerLoaded : Bool

/-- `maxHp`, a constant of the class. -/
def Player.maxHp : ℝ := 5

/-- The player as constructed by `new Player(scene)` (model not yet
loaded). -/
def initialPlayer : Player :=
  { position := ⟨0, 0, 0⟩, rotX := 0, rotY := 0, childRotX := 0,
    visible := true, hp := 5, state := .Idle, stateTimer := 0,
    moveDirection := ⟨0, 0, 0⟩, isInvincible := false, invincibleTimer := 0,
    hasHitAttacked := false, mixerLoaded := false }

/-- `Player.switchState`: resets the state timer, and clears the
`hasHitAttacked` guard when entering `Attack`.  (The animation-action
bookkeeping it also performs is purely visual.) -/
def Player.switchState (p : Player) (s : PState) : Player :=
  let p := { p with state := s, stateTimer := 0 }
  if s = .Attack then { p with hasHitAttacked := false } else p

/-- `Player.takeDamage(amount)` together with the private `die()` it
calls on fatal damage (death pose: `rotation.x = -π/2`,
`position.y = 0.5`). -/
def Player.takeDamage (p : Player) (amount : ℝ) : Player :=
  if p.isInvincible ∨ p.state = .Dead ∨ p.state = .Roll then p
  else
    let hp := p.hp - amount
    if hp ≤ 0 then
      let q := Player.switchState { p with hp := 0 } .Dead
      { q with rotX := -(Real.pi / 2),
               position := { q.position with y := 0.5 } }
    else
      { p with hp := hp, isInvincible := true, invincibleTimer := 1 }

/-- The invincibility-window block at the top of `Player.update`: tick the
timer down, end invincibility when it lapses, otherwise blink the mesh at
10 Hz. -/
def Player.updateInvincibility (dt : ℝ) (p : Player) : Player :=
  if p.isInvincible then
    let t := p.invincibleTimer - dt
    if t ≤ 0 then { p with invincibleTimer := t, isInvincible := false, visible := true }
    else
      { p with invincibleTimer := t,
               visible := if ⌊t * 10⌋ % 2 = 0 then true else false }
  else p

/-- The static obstacle geometry, kept abstract exactly as the game
consumes it: `rayHits origin dir` is the sorted list of hit distances that
`THREE.Raycaster.intersectObjects(obstacles)` (with `far = 2.0`) returns
for a ray.  A level with no obstacles yields `[]` for every ray. -/
structure World where
  rayHits : Vec3 → Vec3 → List ℝ

/-- The empty arena: no obstacle is ever hit. -/
def emptyWorld : World := ⟨fun _ _ => []⟩

/-- `Player.checkCollision`: cast from 1.0 above the feet along
`direction`; movement is blocked iff the nearest hit is closer than
1.5. -/
def Player.checkCollision (w : World) (p : Player) (direction : Vec3) : Bool :=
  let origin := { p.position with y := p.position.y + 1.0 }
  match w.rayHits origin direction with
  | [] => false
  | d :: _ => if d < 1.5 then true else false

/-- `Player.calculateMoveDirection`: camera-relative movement basis. -/
def calculateMoveDirection (ix iy : ℝ) (camForward : Vec3) : Vec3 :=
  let cf := Vec3.normalize ⟨camForward.x, 0, camForward.z⟩
  let cr := Vec3.cross cf ⟨0, 1, 0⟩
  Vec3.normalize ((Vec3.zero.addScaled cf (-iy)).addScaled cr ix)

/-- `Player.rotateToDirection`: exponential yaw damping toward the
movement direction (`rotateSpeed = 10`), with the difference wrapped into
`[-π, π]` first. -/
def Player.rotateToDirection (dt : ℝ) (p : Player) : Player :=
  let angle := atan2 p.moveDirection.x p.moveDirection.z + Real.pi
  let diff := wrapPi (angle - p.rotY)
  { p with rotY := p.rotY + diff * 10 * dt }

/-- `Player.updateIdle`: attack input pre-empts movement, movement
pre-empts roll; entering `Roll` captures the current facing as the fixed
roll direction. -/
def Player.updateIdle (input : InputState) (p : Player) : Player :=
  if input.isAttackPressed then p.switchState .Attack
  else if input.moveX ≠ 0 ∨ input.moveY ≠ 0 then p.switchState .Run
  else if input.isRollPressed then
    let forward := yawApply p.rotY ⟨0, 0, 1⟩
    ({ p with moveDirection := forward }).switchState .Roll
  else p

/-- `Player.updateRun`. -/
def Player.updateRun (dt : ℝ) (input : InputState) (camForward : Vec3)
    (w : World) (p : Player) : Player :=
  if input.isAttackPressed then p.switchState .Attack
  else if input.moveX = 0 ∧ input.moveY = 0 then p.switchState .Idle
  else
    let p := { p with moveDirection := calculateMoveDirection input.moveX input.moveY camForward }
    let p := p.rotateToDirection dt
    let p :=
      if p.checkCollision w p.moveDirection = false then
        { p with position := p.position.addScaled p.moveDirection (8 * dt) }
      else p
    if input.isRollPressed then p.switchState .Roll else p

/-- `Player.updateRoll`: advance the timer, move at `rollSpeed = 20` along
the captured direction unless blocked, tumble the model, and return to
`Idle` once `rollDuration = 0.5` has elapsed. -/
def Player.updateRoll (dt : ℝ) (w : World) (p : Player) : Player :=
  let p := { p with stateTimer := p.stateTimer + dt }
  let p :=
    if p.checkCollision w p.moveDirection = false then
      { p with position := p.position.addScaled p.moveDirection (20 * dt) }
    else p
  let p := if p.mixerLoaded then { p with childRotX := p.childRotX + 15 * dt } else p
  if 0.5 ≤ p.stateTimer then
    (if p.mixerLoaded then { p with childRotX := 0 } else p).switchState .Idle
  else p

/-! ## Combat resolution -/

/-- Fire-and-forget events emitted toward the external collaborators
(effect system) and by the orchestrator (a `player.takeDamage(1)` call for
the enemy at roster index `i`). -/
inductive GEvent where
  | hitEffect (pos : Vec3)
  | playerDamage (i : ℕ)

/-- The hit condition of `Player.checkAttackHit` for one enemy: alive,
within `attackRange = 4.0`, and within half of the 90° attack cone of the
player's forward vector (the dot product is clamped to `[-1, 1]` before
`acos`, as in the source). -/
def hitCond (playerPos playerForward : Vec3) (e : Enemy) : Prop :=
  e.isDead = false ∧
    playerPos.distanceTo e.position ≤ 4 ∧
    Real.arccos (max (-1) (min 1 (playerForward.dot ((e.position.sub playerPos).normalize)))) ≤
      Real.pi / 2 / 2

/-- The body of the `enemies.forEach` in `Player.checkAttackHit`, for one
enemy: on a hit the enemy takes damage and a hit effect is spawned at its
(possibly just-fallen) position raised by 1.5. -/
def attackHitOne (playerPos playerForward : Vec3) (e : Enemy) :
    Enemy × List GEvent :=
  if e.isDead then (e, [])
  else
    let distance := playerPos.distanceTo e.position
    if distance ≤ 4 then
      let toEnemy := (e.position.sub playerPos).normalize
      let d := playerForward.dot toEnemy
      let angle := Real.arccos (max (-1) (min 1 d))
      if angle ≤ Real.pi / 2 / 2 then
        let e' := e.takeDamage
        (e', [GEvent.hitEffect { e'.position with y := e'.position.y + 1.5 }])
      else (e, [])
    else (e, [])

/-- `Player.checkAttackHit`: one resolution pass over the whole roster. -/
def Player.checkAttackHit (p : Player) (enemies : List Enemy) :
    List Enemy × List GEvent :=
  let playerForward := (yawApply p.rotY ⟨0, 0, -1⟩).normalize
  let rs := enemies.map (attackHitOne p.position playerForward)
  (rs.map Prod.fst, (rs.map Prod.snd).flatten)

/-- `Player.updateAttack`: open the one-shot damage window strictly
between 0.1 and 0.3 seconds into the state, and auto-return to `Idle`
after `attackDuration = 0.5`. -/
def Player.updateAttack (dt : ℝ) (enemies : List Enemy) (p : Player) :
    Player × List Enemy × List GEvent :=
  let p := { p with stateTimer := p.stateTimer + dt }
  let r : Player × List Enemy × List GEvent :=
    if p.hasHitAttacked = false ∧ 0.1 < p.stateTimer ∧ p.stateTimer < 0.3 then
      let he := p.checkAttackHit enemies
      ({ p with hasHitAttacked := true }, he.1, he.2)
    else (p, enemies, [])
  if 0.5 ≤ r.1.stateTimer then (r.1.switchState .Idle, r.2.1, r.2.2) else r

/-- `Player.update`: the whole per-frame body.  It returns the updated
player, the (possibly damaged) enemy roster and the emitted effect
events.  The `if (!this.mixer) return` guard at the top skips the entire
body until the model has loaded. -/
def Player.update (dt : ℝ) (input : InputState) (camForward : Vec3)
    (w : World) (enemies : List Enemy) (p : Player) :
    Player × List Enemy × List GEvent :=
  if p.mixerLoaded = false then (p, enemies, [])
  else
    let p := p.updateInvincibility dt
    if p.state = .Dead then (p, enemies, [])
    else
      match p.state with
      | .Idle => (p.updateIdle input, enemies, [])
      | .Run => (p.updateRun dt input camForward w, enemies, [])
      | .Roll => (p.updateRoll dt w, enemies, [])
      | .Attack => p.updateAttack dt enemies
      | .Dead => (p, enemies, [])

/-! ## Game loop (`Game.update` in `src/core/Game.ts`) -/

/-- The game-visible state owned by the orchestrator. -/
structure GameState where
  player : Player
  enemies : List Enemy
  score : ℕ
  isGameOver : Bool
  input : InputState
  world : World

/-- The `enemies.forEach` body of `Game.update`: update each enemy in
array order against the live roster (already-processed enemies are seen at
their new positions, the rest at their old ones, matching the in-place
mutation), then apply contact damage — `player.takeDamage(1)` whenever the
just-updated enemy is alive and within 1.5 of the player — and record that
call as a `playerDamage` event. -/
def enemyLoopAux (dt : ℝ) :
    List Enemy → List Enemy → Player → List GEvent →
      List Enemy × Player × List GEvent
  | done, [], p, evs => (done, p, evs)
  | done, e :: rest, p, evs =>
      let i := done.length
      let e' := Enemy.update dt p.position ((done ++ e :: rest).enum) i e
      let hit := e'.isDead = false ∧ p.position.distanceTo e'.position < 1.5
      let p' := if hit then p.takeDamage 1 else p
      let evs' := evs ++ (if hit then [GEvent.playerDamage i] else [])
      enemyLoopAux dt (done ++ [e']) rest p' evs'

/-- One frame of `Game.update(delta)`, also returning the emitted events.
When the game-over flag is set the whole body is skipped.  Otherwise:
sample input, run the enemy loop with contact damage, advance the player
(visual effect particles and the camera are external concerns carrying no
game state), recompute the score as `1000` per dead enemy, latch the
game-over flag when the player's hp has reached 0, and reset the per-frame
input state. -/
def gameStep (dt : ℝ) (env : FrameEnv) (g : GameState) :
    GameState × List GEvent :=
  if g.isGameOver then (g, [])
  else
    let input := inputUpdate env g.input
    let el := enemyLoopAux dt [] g.enemies g.player []
    let pu := Player.update dt input env.camForward g.world el.1 el.2.1
    let score := (pu.2.1.filter (fun e => e.isDead)).length * 1000
    let isOver := if pu.1.hp ≤ 0 then true else g.isGameOver
    ({ g with player := pu.1, enemies := pu.2.1, score := score,
              isGameOver := isOver, input := inputReset input },
     el.2.2 ++ pu.2.2)

/-- `Game.update(delta)` proper (the state part of `gameStep`). -/
def gameUpdate (dt : ℝ) (env : FrameEnv) (g : GameState) : GameState :=
  (gameStep dt env g).1

/-! ## Frame sequences -/

/-- Everything one `Player.update` call consumes besides the player. -/
structure Frame where
  dt : ℝ
  input : InputState
  camForward : Vec3
  world : World
  enemies : List Enemy

/-- Run a sequence of `Player.update` calls, keeping only the player. -/
def runFrames (fs : List Frame) (p : Player) : Player :=
  fs.foldl
    (fun q f => (Player.update f.dt f.input f.camForward f.world f.enemies q).1)
    p

/-- States of the player simulation reachable from construction by any
interleaving of `update` calls (with arbitrary frame data) and
`takeDamage` calls with nonnegative amounts (the orchestrator only ever
passes `1`). -/
inductive PReachable : Player → Prop where
  | init : PReachable initialPlayer
  | update : ∀ (dt : ℝ) (input : InputState) (cam : Vec3) (w : World)
      (es : List Enemy) {p : Player}, PReachable p →
      PReachable (Player.update dt input cam w es p).1
  | damage : ∀ (a : ℝ) {p : Player}, 0 ≤ a → PReachable p →
      PReachable (p.takeDamage a)

/-! ## Field-preservation lemmas for the player state machine -/

theorem switchState_hp (p : Player) (s : PState) : (p.switchState s).hp = p.hp := by
  unfold Player.switchState; split <;> rfl

theorem switchState_isInvincible (p : Player) (s : PState) :
    (p.switchState s).isInvincible = p.isInvincible := by
  unfold Player.switchState; split <;> rfl

theorem switchState_invincibleTimer (p : Player) (s : PState) :
    (p.switchState s).invincibleTimer = p.invincibleTimer := by
  unfold Player.switchState; split <;> rfl

theorem switchState_mixerLoaded (p : Player) (s : PState) :
    (p.switchState s).mixerLoaded = p.mixerLoaded := by
  unfold Player.switchState; split <;> rfl

theorem updateInvincibility_hp (dt : ℝ) (p : Player) :
    (p.updateInvincibility dt).hp = p.hp := by
  unfold Player.updateInvincibility; dsimp only; split_ifs <;> rfl

theorem updateInvincibility_state (dt : ℝ) (p : Player) :
    (p.updateInvincibility dt).state = p.state := by
  unfold Player.updateInvincibility; dsimp only; split_ifs <;> rfl

theorem updateInvincibility_of_not_invincible (dt : ℝ) (p : Player)
    (h : p.isInvincible = false) : p.updateInvincibility dt = p := by
  unfold Player.updateInvincibility
  simp [h]

theorem updateIdle_hp (input : InputState) (p : Player) :
    (p.updateIdle input).hp = p.hp := by
  unfold Player.updateIdle; split_ifs <;> simp [switchState_hp]

theorem updateIdle_isInvincible (input : InputState) (p : Player) :
    (p.updateIdle input).isInvincible = p.isInvincible := by
  unfold Player.updateIdle; split_ifs <;> simp [switchState_isInvincible]

theorem updateIdle_invincibleTimer (input : InputState) (p : Player) :
    (p.updateIdle input).invincibleTimer = p.invincibleTimer := by
  unfold Player.updateIdle; split_ifs <;> simp [switchState_invincibleTimer]

theorem rotateToDirection_hp (dt : ℝ) (p : Player) :
    (p.rotateToDirection dt).hp = p.hp := rfl

theorem updateRun_hp (dt : ℝ) (input : InputState) (cam : Vec3) (w : World)
    (p : Player) : (p.updateRun dt input cam w).hp = p.hp := by
  unfold Player.updateRun Player.rotateToDirection
  dsimp only
  split_ifs <;> simp [switchState_hp]

theorem updateRun_isInvincible (dt : ℝ) (input : InputState) (cam : Vec3)
    (w : World) (p : Player) :
    (p.updateRun dt input cam w).isInvincible = p.isInvincible := by
  unfold Player.updateRun Player.rotateToDirection
  dsimp only
  split_ifs <;> simp [switchState_isInvincible]

theorem updateRun_invincibleTimer (dt : ℝ) (input : InputState) (cam : Vec3)
    (w : World) (p : Player) :
    (p.updateRun dt input cam w).invincibleTimer = p.invincibleTimer := by
  unfold Player.updateRun Player.rotateToDirection
  dsimp only
  split_ifs <;> simp [switchState_invincibleTimer]

theorem updateRoll_hp (dt : ℝ) (w : World) (p : Player) :
    (p.updateRoll dt w).hp = p.hp := by
  unfold Player.updateRoll
  dsimp only
  split_ifs <;> simp [switchState_hp]

theorem updateRoll_isInvincible (dt : ℝ) (w : World) (p : Player) :
    (p.updateRoll dt w).isInvincible = p.isInvincible := by
  unfold Player.updateRoll
  dsimp only
  split_ifs <;> simp [switchState_isInvincible]

theorem updateRoll_invincibleTimer (dt : ℝ) (w : World) (p : Player) :
    (p.updateRoll dt w).invincibleTimer = p.invincibleTimer := by
  unfold Player.updateRoll
  dsimp only
  split_ifs <;> simp [switchState_invincibleTimer]

theorem updateAttack_hp (dt : ℝ) (es : List Enemy) (p : Player) :
    (p.updateAttack dt es).1.hp = p.hp := by
  unfold Player.updateAttack
  dsimp only
  split_ifs <;> simp [switchState_hp]

theorem updateAttack_isInvincible (dt : ℝ) (es : List Enemy) (p : Player) :
    (p.updateAttack dt es).1.isInvincible = p.isInvincible := by
  unfold Player.updateAttack
  dsimp only
  split_ifs <;> simp [switchState_isInvincible]

theorem updateAttack_invincibleTimer (dt : ℝ) (es : List Enemy) (p : Player) :
    (p.updateAttack dt es).1.invincibleTimer = p.invincibleTimer := by
  unfold Player.updateAttack
  dsimp only
  split_ifs <;> simp [switchState_invincibleTimer]

/-- `Player.update` never changes the player's hp: hp moves only through
`takeDamage`, which the per-frame body never calls on the player itself. -/
theorem update_hp (dt : ℝ) (input : InputState) (cam : Vec3) (w : World)
    (es : List Enemy) (p : Player) :
    (Player.update dt input cam w es p).1.hp = p.hp := by
  unfold Player.update
  by_cases hm : p.mixerLoaded = false
  · simp [hm]
  · simp only [hm, if_false]
    set q := p.updateInvincibility dt with hq
    have hqhp : q.hp = p.hp := updateInvincibility_hp dt p
    by_cases hd : q.state = .Dead
    · simp [hd, hqhp]
    · simp only [hd, if_false]
      cases hs : q.state <;>
        simp [hs, updateIdle_hp, updateRun_hp, updateRoll_hp, updateAttack_hp, hqhp]

/-- During the per-frame body, the invincibility flag can only end by the
timer lapsing: if the player is invincible with more than `dt` left on the
timer, one `update` keeps the flag and leaves at least `timer − dt` on the
clock, and the hp untouched. -/
theorem update_invincible_persist (dt : ℝ) (input : InputState) (cam : Vec3)
    (w : World) (es : List Enemy) (p : Player)
    (hinv : p.isInvincible = true) (hdt : 0 ≤ dt)
    (hlt : dt < p.invincibleTimer) :
    (Player.update dt input cam w es p).1.isInvincible = true ∧
    p.invincibleTimer - dt ≤ (Player.update dt input cam w es p).1.invincibleTimer := by
  unfold Player.update
  by_cases hm : p.mixerLoaded = false
  · simp [hm, hinv]
    linarith
  · simp only [hm, if_false]
    set q := p.updateInvincibility dt with hq
    have hqi : q.isInvincible = true ∧ q.invincibleTimer = p.invincibleTimer - dt := by
      rw [hq]
      unfold Player.updateInvincibility
      have hnot : ¬(p.invincibleTimer - dt ≤ 0) := by linarith
      simp [hinv, hnot]
    by_cases hd : q.state = .Dead
    · simp [hd, hqi.1, hqi.2]
    · simp only [hd, if_false]
      cases hs : q.state <;>
        simp [hs, updateIdle_isInvincible, updateRun_isInvincible,
          updateRoll_isInvincible, updateAttack_isInvincible,
          updateIdle_invincibleTimer, updateRun_invincibleTimer,
          updateRoll_invincibleTimer, updateAttack_invincibleTimer,
          hqi.1, hqi.2]

/-- Running any nonnegative frame sequence whose total simulated time is
less than the remaining invincibility leaves the player invincible, with
hp untouched. -/
theorem runFrames_invincible (fs : List Frame) (p : Player)
    (hinv : p.isInvincible = true) (hdts : ∀ f ∈ fs, 0 ≤ f.dt)
    (hsum : (fs.map Frame.dt).sum < p.invincibleTimer) :
    (runFrames fs p).isInvincible = true ∧
    p.invincibleTimer - (fs.map Frame.dt).sum ≤ (runFrames fs p).invincibleTimer ∧
    (runFrames fs p).hp = p.hp := by
  induction fs generalizing p with
  | nil => simp [runFrames, hinv]
  | cons f fs ih =>
    have hdtf : 0 ≤ f.dt := hdts f (List.mem_cons_self f fs)
    have hrest : ∀ g ∈ fs, 0 ≤ g.dt := fun g hg => hdts g (List.mem_cons_of_mem f hg)
    have hsumr : 0 ≤ (fs.map Frame.dt).sum :=
      List.sum_nonneg (by
        intro a ha
        rcases List.mem_map.mp ha with ⟨g, hg, rfl⟩
        exact hrest g hg)
    have hsum' : (fs.map Frame.dt).sum + f.dt < p.invincibleTimer := by
      simpa [List.map_cons, List.sum_cons, add_comm] using hsum
    have hlt : f.dt < p.invincibleTimer := by linarith
    set q := (Player.update f.dt f.input f.camForward f.world f.enemies p).1 with hqdef
    have hper := update_invincible_persist f.dt f.input f.camForward f.world f.enemies p hinv hdtf hlt
    have hhp : q.hp = p.hp := update_hp f.dt f.input f.camForward f.world f.enemies p
    have hsq : (fs.map Frame.dt).sum < q.invincibleTimer := by
      have := hper.2
      linarith
    have hih := ih q hper.1 hrest hsq
    have hstep : runFrames (f :: fs) p = runFrames fs q := rfl
    refine ⟨?_, ?_, ?_⟩
    · rw [hstep]; exact hih.1
    · rw [hstep]
      have h2 := hih.2.1
      have hper2 := hper.2
      simp only [List.map_cons, List.sum_cons]
      linarith
    · rw [hstep, hih.2.2, hhp]

/-! ## takeDamage lemmas -/

theorem takeDamage_noop (p : Player) (a : ℝ)
    (h : p.isInvincible = true ∨ p.state = .Dead ∨ p.state = .Roll) :
    p.takeDamage a = p := by
  unfold Player.takeDamage
  simp only [if_pos (by simpa using h)]

theorem takeDamage_fatal (p : Player) (a : ℝ)
    (h : ¬(p.isInvincible = true ∨ p.state = .Dead ∨ p.state = .Roll))
    (hf : p.hp - a ≤ 0) :
    (p.takeDamage a).hp = 0 ∧ (p.takeDamage a).state = .Dead := by
  unfold Player.takeDamage
  rw [if_neg (by simpa using h), if_pos hf]
  constructor
  · simp [switchState_hp]
  · unfold Player.switchState
    simp

theorem takeDamage_nonfatal (p : Player) (a : ℝ)
    (h : ¬(p.isInvincible = true ∨ p.state = .Dead ∨ p.state = .Roll))
    (hf : 0 < p.hp - a) :
    p.takeDamage a =
      { p with hp := p.hp - a, isInvincible := true, invincibleTimer := 1 } := by
  unfold Player.takeDamage
  rw [if_neg (by simpa using h), if_neg (by linarith)]

theorem takeDamage_hp_le (p : Player) (a : ℝ) (ha : 0 ≤ a) (hp0 : 0 ≤ p.hp) :
    (p.takeDamage a).hp ≤ p.hp := by
  by_cases h : p.isInvincible = true ∨ p.state = .Dead ∨ p.state = .Roll
  · rw [takeDamage_noop p a h]
  · by_cases hf : p.hp - a ≤ 0
    · rw [(takeDamage_fatal p a h hf).1]; exact hp0
    · rw [takeDamage_nonfatal p a h (by linarith)]; simp; linarith

theorem takeDamage_hp_decrease (p : Player) (a : ℝ)
    (hlt : (p.takeDamage a).hp < p.hp) :
    p.isInvincible = false ∧ p.state ≠ .Dead ∧ p.state ≠ .Roll := by
  by_cases h : p.isInvincible = true ∨ p.state = .Dead ∨ p.state = .Roll
  · rw [takeDamage_noop p a h] at hlt
    exact absurd hlt (lt_irrefl _)
  · push_neg at h
    refine ⟨?_, h.2.1, h.2.2⟩
    cases hb : p.isInvincible
    · rfl
    · exact absurd hb h.1

/-! ## Claim theorems -/

/-- C1: `Player.takeDamage(amount)` is a no-op (the whole state is
unchanged) when the player is invincible, Dead or Rolling; otherwise hp
drops by `amount`, a fatal result is clamped to exactly 0 with a
transition to Dead, and a non-fatal hit starts a 1.0-second invincibility
window (`isInvincible = true`, `invincibleTimer = 1.0`) under which any
further `takeDamage` within strictly less than 1.0 s of simulated update
time leaves hp unchanged. -/
theorem claim_C1 :
    (∀ (p : Player) (a : ℝ),
        (p.isInvincible = true ∨ p.state = .Dead ∨ p.state = .Roll) →
          p.takeDamage a = p) ∧
    (∀ (p : Player) (a : ℝ),
        ¬(p.isInvincible = true ∨ p.state = .Dead ∨ p.state = .Roll) →
          (p.hp - a ≤ 0 →
            (p.takeDamage a).hp = 0 ∧ (p.takeDamage a).state = .Dead) ∧
          (0 < p.hp - a →
            (p.takeDamage a).hp = p.hp - a ∧
            (p.takeDamage a).isInvincible = true ∧
            (p.takeDamage a).invincibleTimer = 1)) ∧
    (∀ (p : Player) (a b : ℝ) (fs : List Frame),
        ¬(p.isInvincible = true ∨ p.state = .Dead ∨ p.state = .Roll) →
        0 < p.hp - a →
        (∀ f ∈ fs, 0 ≤ f.dt) →
        (fs.map Frame.dt).sum < 1 →
          ((runFrames fs (p.takeDamage a)).takeDamage b).hp = p.hp - a) := by
  refine ⟨takeDamage_noop, ?_, ?_⟩
  · intro p a h
    exact ⟨takeDamage_fatal p a h, fun hf => by
      rw [takeDamage_nonfatal p a h hf]
      exact ⟨rfl, rfl, rfl⟩⟩
  · intro p a b fs h hf hdts hsum
    set q := p.takeDamage a with hq
    have hqv : q = { p with hp := p.hp - a, isInvincible := true, invincibleTimer := 1 } :=
      takeDamage_nonfatal p a h hf
    have hinv : q.isInvincible = true := by rw [hqv]
    have htimer : (fs.map Frame.dt).sum < q.invincibleTimer := by rw [hqv]; exact hsum
    have hrun := runFrames_invincible fs q hinv hdts htimer
    have hnoop : (runFrames fs q).takeDamage b = runFrames fs q :=
      takeDamage_noop _ b (Or.inl hrun.1)
    rw [hnoop, hrun.2.2, hqv]

/-- Witness for C1 at a concrete input: the freshly constructed player is
vulnerable, takes non-fatal damage `1`, and a second `takeDamage` fired
after a `0.4`-second frame still finds hp at `4`. -/
theorem claim_C1_witness :
    ¬(initialPlayer.isInvincible = true ∨ initialPlayer.state = .Dead ∨
        initialPlayer.state = .Roll) ∧
    0 < initialPlayer.hp - 1 ∧
    ((runFrames [⟨0.4, ⟨0, 0, 0, 0, false, false⟩, ⟨0, 0, 1⟩, emptyWorld, []⟩]
        (initialPlayer.takeDamage 1)).takeDamage 1).hp = initialPlayer.hp - 1 := by
  have h1 : ¬(initialPlayer.isInvincible = true ∨ initialPlayer.state = .Dead ∨
      initialPlayer.state = .Roll) := by
    simp [initialPlayer]
  have h2 : 0 < initialPlayer.hp - 1 := by
    have : initialPlayer.hp = 5 := rfl
    rw [this]; norm_num
  refine ⟨h1, h2, ?_⟩
  refine claim_C1.2.2 initialPlayer 1 1 _ h1 h2 ?_ ?_
  · intro f hf
    simp only [List.mem_singleton] at hf
    subst hf
    norm_num
  · simp
    norm_num

/-- C2: in every state reachable by any sequence of `update` and
(nonnegative) `takeDamage` calls from the initial player, hp stays within
`[0, maxHp]` with `maxHp = 5`; `update` never changes hp, `takeDamage`
never increases it, and a strict decrease can only happen through a
`takeDamage` call made while the player is neither invincible nor Dead
nor Rolling. -/
theorem claim_C2 :
    Player.maxHp = 5 ∧
    (∀ p : Player, PReachable p → 0 ≤ p.hp ∧ p.hp ≤ Player.maxHp) ∧
    (∀ (dt : ℝ) (input : InputState) (cam : Vec3) (w : World)
        (es : List Enemy) (p : Player),
        (Player.update dt input cam w es p).1.hp = p.hp) ∧
    (∀ (p : Player) (a : ℝ), PReachable p → 0 ≤ a →
        (p.takeDamage a).hp ≤ p.hp) ∧
    (∀ (p : Player) (a : ℝ), (p.takeDamage a).hp < p.hp →
        p.isInvincible = false ∧ p.state ≠ .Dead ∧ p.state ≠ .Roll) := by
  have hbounds : ∀ p : Player, PReachable p → 0 ≤ p.hp ∧ p.hp ≤ Player.maxHp := by
    intro p hr
    induction hr with
    | init =>
        constructor
        · show (0:ℝ) ≤ initialPlayer.hp
          norm_num [initialPlayer]
        · show initialPlayer.hp ≤ Player.maxHp
          norm_num [initialPlayer, Player.maxHp]
    | update dt input cam w es hr ih =>
        rw [update_hp]
        exact ih
    | damage a ha hr ih =>
        rename_i p'
        by_cases h : p'.isInvincible = true ∨ p'.state = .Dead ∨ p'.state = .Roll
        · rw [takeDamage_noop p' a h]
          exact ih
        · by_cases hf : p'.hp - a ≤ 0
          · rw [(takeDamage_fatal p' a h hf).1]
            constructor
            · exact le_refl 0
            · norm_num [Player.maxHp]
          · rw [takeDamage_nonfatal p' a h (by linarith)]
            constructor
            · simp; linarith
            · simp; linarith [ih.2]
  refine ⟨rfl, hbounds, update_hp, ?_, takeDamage_hp_decrease⟩
  intro p a hr ha
  exact takeDamage_hp_le p a ha (hbounds p hr).1

/-- Witness for C2 at a concrete input: the initial player is reachable
and its hp is within bounds; a `takeDamage 1` on it does not increase
hp. -/
theorem claim_C2_witness :
    (0 ≤ initialPlayer.hp ∧ initialPlayer.hp ≤ Player.maxHp) ∧
    (initialPlayer.takeDamage 1).hp ≤ initialPlayer.hp := by
  exact ⟨claim_C2.2.1 initialPlayer PReachable.init,
    claim_C2.2.2.2.1 initialPlayer 1 PReachable.init (by norm_num)⟩

/-! ## Vec3 algebra lemmas -/

theorem Vec3.add_zero_right (v : Vec3) : v.add Vec3.zero = v := by
  simp [Vec3.add, Vec3.zero]

theorem Vec3.add_assoc_right (a b c : Vec3) :
    (a.add b).add c = a.add (b.add c) := by
  simp only [Vec3.add, Vec3.mk.injEq]
  refine ⟨by ring, by ring, by ring⟩

theorem Vec3.length_zxis (c : ℝ) : Vec3.length ⟨0, 0, c⟩ = |c| := by
  have h : (0:ℝ) ^ 2 + 0 ^ 2 + c ^ 2 = c ^ 2 := by ring
  rw [Vec3.length]
  rw [h, Real.sqrt_sq_eq_abs]

theorem Vec3.length_xaxis (c : ℝ) : Vec3.length ⟨c, 0, 0⟩ = |c| := by
  have h : c ^ 2 + (0:ℝ) ^ 2 + 0 ^ 2 = c ^ 2 := by ring
  rw [Vec3.length]
  rw [h, Real.sqrt_sq_eq_abs]

/-- The forward vector produced by the enemy's horizontal `lookAt` is
never the zero vector. -/
theorem lookAtForward_ne_zero (dir : Vec3) : lookAtForward dir ≠ Vec3.zero := by
  unfold lookAtForward
  dsimp only
  split_ifs with h
  · intro hcon
    have : (1:ℝ) = 0 := congrArg Vec3.z hcon
    norm_num at this
  · exact Vec3.normalize_ne_zero (fun h0 => h (by rw [h0]; simp [Vec3.length, Vec3.zero]))

/-! ## C4: enemy seek band -/

/-- An enemy constructed at the origin whose model has not loaded yet. -/
def eC4 : Enemy := Enemy.spawn ⟨0, 0, 0⟩

/-- Counterexample to C4 as stated: `eC4` is alive and at distance 5 from
the player — inside the `(2, 15]` seek band — yet `Enemy.update` with
`dt = 1` leaves its position unchanged, because its model has not finished
loading and `if (!this.mixer) return` skips the whole body.  So "moves iff
`2 < d ≤ 15` and not dead" is false for this call. -/
theorem claim_C4_counterexample :
    (eC4.isDead = false ∧ 2 < eC4.position.distanceTo ⟨0, 0, 5⟩ ∧
      eC4.position.distanceTo ⟨0, 0, 5⟩ ≤ 15) ∧
    (Enemy.update 1 ⟨0, 0, 5⟩ [(0, eC4)] 0 eC4).position = eC4.position := by
  have hd : eC4.position.distanceTo ⟨0, 0, 5⟩ = 5 := by
    show Vec3.length (Vec3.sub ⟨0, 0, 0⟩ ⟨0, 0, 5⟩) = 5
    have : Vec3.sub ⟨0, 0, 0⟩ ⟨0, 0, 5⟩ = (⟨0, 0, -5⟩ : Vec3) := by
      simp [Vec3.sub]
    rw [this, Vec3.length_zxis]
    norm_num
  refine ⟨⟨rfl, by rw [hd]; norm_num, by rw [hd]; norm_num⟩, ?_⟩
  have : Enemy.update 1 ⟨0, 0, 5⟩ [(0, eC4)] 0 eC4 = eC4 := by
    unfold Enemy.update
    simp [eC4, Enemy.spawn]
  rw [this]

/-- C4 (amended: restricted to an enemy whose model has finished
loading, with `dt > 0` for the strict-movement direction): a live loaded
enemy with `2 < d ≤ 15` advances by exactly `3.5·dt` along its computed
heading (`lookAtForward` of the combined seek/separation direction) and
faces it; outside that band, or when dead, position and rotation are
unchanged; hence with `dt > 0` it moves iff it is alive and `2 < d ≤ 15`.
An enemy whose model has not loaded never moves. -/
theorem claim_C4 :
    ∀ (dt : ℝ) (playerPos : Vec3) (all : List (ℕ × Enemy)) (i : ℕ) (e : Enemy),
      (e.mixerLoaded = true →
        (e.isDead = false → 2 < e.position.distanceTo playerPos →
          e.position.distanceTo playerPos ≤ 15 →
          Enemy.update dt playerPos all i e =
            { e with
                forward := lookAtForward (Enemy.heading i e playerPos all),
                position := e.position.addScaled
                  (lookAtForward (Enemy.heading i e playerPos all)) (3.5 * dt) }) ∧
        ((e.isDead = true ∨ e.position.distanceTo playerPos ≤ 2 ∨
            15 < e.position.distanceTo playerPos) →
          Enemy.update dt playerPos all i e = e) ∧
        (0 < dt → e.isDead = false → 2 < e.position.distanceTo playerPos →
          e.position.distanceTo playerPos ≤ 15 →
          (Enemy.update dt playerPos all i e).position ≠ e.position)) ∧
      (e.mixerLoaded = false → Enemy.update dt playerPos all i e = e) := by
  intro dt playerPos all i e
  constructor
  · intro hm
    have hm' : ¬(e.mixerLoaded = false) := by rw [hm]; simp
    have hmove : e.isDead = false → 2 < e.position.distanceTo playerPos →
        e.position.distanceTo playerPos ≤ 15 →
        Enemy.update dt playerPos all i e =
          { e with
              forward := lookAtForward (Enemy.heading i e playerPos all),
              position := e.position.addScaled
                (lookAtForward (Enemy.heading i e playerPos all)) (3.5 * dt) } := by
      intro halive h2 h15
      unfold Enemy.update
      rw [if_neg hm', if_neg (by rw [halive]; simp)]
      dsimp only
      rw [if_pos ⟨h15, h2⟩]
    refine ⟨hmove, ?_, ?_⟩
    · intro hcase
      unfold Enemy.update
      rw [if_neg hm']
      by_cases hd : e.isDead = true
      · rw [if_pos hd]
      · rw [if_neg hd]
        dsimp only
        have hnot : ¬(e.position.distanceTo playerPos ≤ 15 ∧
            2 < e.position.distanceTo playerPos) := by
          rcases hcase with hdead | hband | hband
          · exact absurd hdead hd
          · rintro ⟨h15, h2⟩; linarith
          · rintro ⟨h15, h2⟩; linarith
        rw [if_neg hnot]
    · intro hdt halive h2 h15
      rw [hmove halive h2 h15]
      intro hposeq
      have hpos : e.position.addScaled
          (lookAtForward (Enemy.heading i e playerPos all)) (3.5 * dt) =
            e.position := hposeq
      set f := lookAtForward (Enemy.heading i e playerPos all) with hf
      have hx : e.position.x + 3.5 * dt * f.x = e.position.x := congrArg Vec3.x hpos
      have hy : e.position.y + 3.5 * dt * f.y = e.position.y := congrArg Vec3.y hpos
      have hz : e.position.z + 3.5 * dt * f.z = e.position.z := congrArg Vec3.z hpos
      have hcomp : ∀ c : ℝ, e.position.x + 3.5 * dt * c = e.position.x → c = 0 := by
        intro c hc
        have h0 : 3.5 * dt * c = 0 := by linarith
        rcases mul_eq_zero.mp h0 with h | h
        · exfalso; nlinarith
        · exact h
      have hfx : f.x = 0 := hcomp f.x hx
      have hfy : f.y = 0 := by
        have h0 : 3.5 * dt * f.y = 0 := by linarith
        rcases mul_eq_zero.mp h0 with h | h
        · exfalso; nlinarith
        · exact h
      have hfz : f.z = 0 := by
        have h0 : 3.5 * dt * f.z = 0 := by linarith
        rcases mul_eq_zero.mp h0 with h | h
        · exfalso; nlinarith
        · exact h
      exact lookAtForward_ne_zero (Enemy.heading i e playerPos all)
        (by rw [← hf]; exact Vec3.ext_fields hfx hfy hfz)
  · intro hm
    unfold Enemy.update
    rw [if_pos hm]

/-- Witness for C4 at a concrete input: a loaded live enemy at the origin
with the player 5 away (inside the band) moves; a loaded live enemy with
the player 20 away (beyond `detectionRange = 15`) stays exactly in
place. -/
theorem claim_C4_witness :
    (Enemy.update 1 ⟨0, 0, 20⟩ [(0, { eC4 with mixerLoaded := true })] 0
        { eC4 with mixerLoaded := true } = { eC4 with mixerLoaded := true }) ∧
    (Enemy.update 1 ⟨0, 0, 5⟩ [(0, { eC4 with mixerLoaded := true })] 0
        { eC4 with mixerLoaded := true }).position ≠
      ({ eC4 with mixerLoaded := true } : Enemy).position := by
  have hd20 : ({ eC4 with mixerLoaded := true } : Enemy).position.distanceTo ⟨0, 0, 20⟩ = 20 := by
    show Vec3.length (Vec3.sub ⟨0, 0, 0⟩ ⟨0, 0, 20⟩) = 20
    have h1 : Vec3.sub ⟨0, 0, 0⟩ ⟨0, 0, 20⟩ = (⟨0, 0, -20⟩ : Vec3) := by
      simp [Vec3.sub]
    rw [h1, Vec3.length_zxis]; norm_num
  have hd5 : ({ eC4 with mixerLoaded := true } : Enemy).position.distanceTo ⟨0, 0, 5⟩ = 5 := by
    show Vec3.length (Vec3.sub ⟨0, 0, 0⟩ ⟨0, 0, 5⟩) = 5
    have h1 : Vec3.sub ⟨0, 0, 0⟩ ⟨0, 0, 5⟩ = (⟨0, 0, -5⟩ : Vec3) := by
      simp [Vec3.sub]
    rw [h1, Vec3.length_zxis]; norm_num
  constructor
  · exact ((claim_C4 1 ⟨0, 0, 20⟩ [(0, { eC4 with mixerLoaded := true })] 0
        { eC4 with mixerLoaded := true }).1 rfl).2.1
      (Or.inr (Or.inr (by rw [hd20]; norm_num)))
  · exact ((claim_C4 1 ⟨0, 0, 5⟩ [(0, { eC4 with mixerLoaded := true })] 0
        { eC4 with mixerLoaded := true }).1 rfl).2.2
      (by norm_num) rfl (by rw [hd5]; norm_num) (by rw [hd5]; norm_num)

/-! ## C5: separation steering -/

/-- The repulsion contribution of one neighbour `o` to `e`'s separation
vector: the unit vector away from `o`, weighted by
`(separationRange − d) / separationRange`. -/
def sepContrib (e o : Enemy) : Vec3 :=
  Vec3.smul ((2.5 - e.position.distanceTo o.position) / 2.5)
    ((e.position.sub o.position).normalize)

/-- Whether roster entry `jo` contributes to enemy `i`'s separation:
another index, alive, strictly inside `separationRange = 2.5`. -/
def sepQualifies (i : ℕ) (e : Enemy) (jo : ℕ × Enemy) : Bool :=
  if ¬(jo.1 = i ∨ jo.2.isDead = true) ∧
      e.position.distanceTo jo.2.position < 2.5 then true else false

/-- Sum of a list of vectors. -/
def vsum (l : List Vec3) : Vec3 := l.foldl Vec3.add Vec3.zero

theorem vsum_nil : vsum [] = Vec3.zero := rfl

theorem zero_add_vec (a : Vec3) : Vec3.zero.add a = a := by
  simp [Vec3.add, Vec3.zero]

theorem foldl_add_shift (l : List Vec3) : ∀ v : Vec3,
    l.foldl Vec3.add v = v.add (vsum l) := by
  induction l with
  | nil => intro v; simp [vsum, Vec3.add_zero_right]
  | cons a l ih =>
      intro v
      rw [List.foldl_cons, ih (v.add a)]
      have hv : vsum (a :: l) = a.add (vsum l) := by
        show List.foldl Vec3.add (Vec3.zero.add a) l = a.add (vsum l)
        rw [ih (Vec3.zero.add a), zero_add_vec]
      rw [hv, Vec3.add_assoc_right]

theorem vsum_cons (a : Vec3) (l : List Vec3) : vsum (a :: l) = a.add (vsum l) := by
  show List.foldl Vec3.add (Vec3.zero.add a) l = a.add (vsum l)
  rw [foldl_add_shift, zero_add_vec]

/-- The separation fold computes exactly the sum of the per-neighbour
contributions over the qualifying roster entries, together with their
count. -/
theorem separation_characterization (i : ℕ) (e : Enemy)
    (all : List (ℕ × Enemy)) :
    Enemy.separation i e all =
      (vsum ((all.filter (sepQualifies i e)).map (fun jo => sepContrib e jo.2)),
       (all.filter (sepQualifies i e)).length) := by
  suffices h : ∀ acc : Vec3 × ℕ,
      all.foldl
        (fun acc other =>
          if other.1 = i ∨ other.2.isDead then acc
          else
            let dN := e.position.distanceTo other.2.position
            if dN < 2.5 then
              let push := (e.position.sub other.2.position).normalize
              (acc.1.addScaled push ((2.5 - dN) / 2.5), acc.2 + 1)
            else acc)
        acc =
      (acc.1.add (vsum ((all.filter (sepQualifies i e)).map (fun jo => sepContrib e jo.2))),
       acc.2 + (all.filter (sepQualifies i e)).length) by
    rw [Enemy.separation, h (Vec3.zero, 0)]
    rw [show (Vec3.zero, 0).1 = Vec3.zero from rfl, zero_add_vec]
    simp
  induction all with
  | nil => intro acc; simp [vsum_nil, Vec3.add_zero_right]
  | cons jo rest ih =>
      intro acc
      rw [List.foldl_cons]
      by_cases hq : (¬(jo.1 = i ∨ jo.2.isDead = true)) ∧
          e.position.distanceTo jo.2.position < 2.5
      · have hqb : sepQualifies i e jo = true := by
          unfold sepQualifies; rw [if_pos hq]
        have hskip : ¬(jo.1 = i ∨ jo.2.isDead = true) := hq.1
        rw [if_neg (by simpa using hskip)]
        dsimp only
        rw [if_pos hq.2]
        rw [ih]
        rw [List.filter_cons_of_pos hqb]
        simp only [List.map_cons, vsum_cons, List.length_cons, Prod.mk.injEq]
        constructor
        · rw [← Vec3.add_assoc_right]
          rfl
        · omega
      · have hqb : ¬(sepQualifies i e jo = true) := by
          unfold sepQualifies; rw [if_neg hq]; simp
        rw [List.filter_cons_of_neg hqb]
        by_cases hskip : jo.1 = i ∨ jo.2.isDead = true
        · rw [if_pos (by simpa using hskip)]
          exact ih acc
        · rw [if_neg (by simpa using hskip)]
          dsimp only
          have hfar : ¬(e.position.distanceTo jo.2.position < 2.5) := by
            intro hlt
            exact hq ⟨hskip, hlt⟩
          rw [if_neg hfar]
          exact ih acc
/-- Two live, loaded enemies standing 1.0 apart on the x axis. -/
def eA : Enemy := { Enemy.spawn ⟨0, 0, 0⟩ with mixerLoaded := true }

/-- See `eA`. -/
def eB : Enemy := { Enemy.spawn ⟨1, 0, 0⟩ with mixerLoaded := true }

/-- The roster holding `eA` and `eB`, with their array indices. -/
def pairRoster : List (ℕ × Enemy) := [(0, eA), (1, eB)]

/-- C5: the separation fold sums, over every other live enemy strictly
within `separationRange = 2.5`, a repulsion directed away from the
neighbour weighted by `(2.5 − d)/2.5`, and counts the contributors; a
neighbour at `d ≥ 2.5` contributes exactly nothing; the final heading is
`normalize(seek + 1.5 · (separation sum / count))` when anybody
contributed and the bare seek vector otherwise; and each of two live
enemies 1.0 apart computes a nonzero repulsion whose dot product with the
direction away from the other is positive. -/
theorem claim_C5 :
    (∀ (i : ℕ) (e : Enemy) (all : List (ℕ × Enemy)),
        Enemy.separation i e all =
          (vsum ((all.filter (sepQualifies i e)).map (fun jo => sepContrib e jo.2)),
           (all.filter (sepQualifies i e)).length)) ∧
    (∀ (i : ℕ) (e : Enemy) (all : List (ℕ × Enemy)) (j : ℕ) (o : Enemy),
        2.5 ≤ e.position.distanceTo o.position →
        Enemy.separation i e (all ++ [(j, o)]) = Enemy.separation i e all) ∧
    (∀ (i : ℕ) (e : Enemy) (pp : Vec3) (all : List (ℕ × Enemy)),
        ((Enemy.separation i e all).2 = 0 →
          Enemy.heading i e pp all = (pp.sub e.position).normalize) ∧
        (0 < (Enemy.separation i e all).2 →
          Enemy.heading i e pp all =
            (((pp.sub e.position).normalize).addScaled
              (Vec3.smul (1 / ((Enemy.separation i e all).2 : ℝ))
                (Enemy.separation i e all).1) 1.5).normalize)) ∧
    (Enemy.separation 0 eA pairRoster = (⟨-(3/5), 0, 0⟩, 1) ∧
     Enemy.separation 1 eB pairRoster = (⟨3/5, 0, 0⟩, 1) ∧
     (Enemy.separation 0 eA pairRoster).1 ≠ Vec3.zero ∧
     0 < (Enemy.separation 0 eA pairRoster).1.dot (eA.position.sub eB.position) ∧
     (Enemy.separation 1 eB pairRoster).1 ≠ Vec3.zero ∧
     0 < (Enemy.separation 1 eB pairRoster).1.dot (eB.position.sub eA.position)) := by
  have hsubAB : eA.position.sub eB.position = (⟨-1, 0, 0⟩ : Vec3) := by
    show Vec3.sub ⟨0, 0, 0⟩ ⟨1, 0, 0⟩ = _
    simp [Vec3.sub]
  have hsubBA : eB.position.sub eA.position = (⟨1, 0, 0⟩ : Vec3) := by
    show Vec3.sub ⟨1, 0, 0⟩ ⟨0, 0, 0⟩ = _
    simp [Vec3.sub]
  have hdAB : eA.position.distanceTo eB.position = 1 := by
    show Vec3.length (Vec3.sub ⟨0, 0, 0⟩ ⟨1, 0, 0⟩) = 1
    rw [show Vec3.sub ⟨0, 0, 0⟩ ⟨1, 0, 0⟩ = (⟨-1, 0, 0⟩ : Vec3) from by simp [Vec3.sub],
      Vec3.length_xaxis]
    norm_num
  have hdBA : eB.position.distanceTo eA.position = 1 := by
    show Vec3.length (Vec3.sub ⟨1, 0, 0⟩ ⟨0, 0, 0⟩) = 1
    rw [show Vec3.sub ⟨1, 0, 0⟩ ⟨0, 0, 0⟩ = (⟨1, 0, 0⟩ : Vec3) from by simp [Vec3.sub],
      Vec3.length_xaxis]
    norm_num
  have hnA : Vec3.normalize ⟨-1, 0, 0⟩ = (⟨-1, 0, 0⟩ : Vec3) := by
    unfold Vec3.normalize
    rw [show Vec3.length ⟨-1, 0, 0⟩ = 1 from by rw [Vec3.length_xaxis]; norm_num]
    rw [if_neg (by norm_num)]
    simp [Vec3.smul]
  have hnB : Vec3.normalize ⟨1, 0, 0⟩ = (⟨1, 0, 0⟩ : Vec3) := by
    unfold Vec3.normalize
    rw [show Vec3.length ⟨1, 0, 0⟩ = 1 from by rw [Vec3.length_xaxis]; norm_num]
    rw [if_neg (by norm_num)]
    simp [Vec3.smul]
  have hsepA : Enemy.separation 0 eA pairRoster = (⟨-(3/5), 0, 0⟩, 1) := by
    unfold Enemy.separation pairRoster
    simp only [List.foldl_cons, List.foldl_nil, true_or, if_true]
    rw [if_neg (by simp [eB, Enemy.spawn])]
    rw [hdAB]
    rw [if_pos (by norm_num)]
    rw [hsubAB, hnA]
    simp only [Vec3.addScaled, Vec3.add, Vec3.smul, Vec3.zero, Prod.mk.injEq,
      Vec3.mk.injEq]
    norm_num
  have hsepB : Enemy.separation 1 eB pairRoster = (⟨3/5, 0, 0⟩, 1) := by
    unfold Enemy.separation pairRoster
    simp only [List.foldl_cons, List.foldl_nil, true_or, if_true]
    rw [if_neg (by simp [eA, Enemy.spawn])]
    rw [hdBA]
    rw [if_pos (by norm_num)]
    rw [hsubBA, hnB]
    simp only [Vec3.addScaled, Vec3.add, Vec3.smul, Vec3.zero, Prod.mk.injEq,
      Vec3.mk.injEq]
    norm_num
  refine ⟨separation_characterization, ?_, ?_, ?_⟩
  · intro i e all j o hfar
    unfold Enemy.separation
    rw [List.foldl_append]
    simp only [List.foldl_cons, List.foldl_nil]
    by_cases hskip : j = i ∨ o.isDead = true
    · rw [if_pos (by simpa using hskip)]
    · rw [if_neg (by simpa using hskip)]
      rw [if_neg (not_lt.mpr hfar)]
  · intro i e pp all
    constructor
    · intro hcount
      unfold Enemy.heading
      dsimp only
      rw [if_neg (by rw [hcount]; simp)]
    · intro hcount
      unfold Enemy.heading
      dsimp only
      rw [if_pos hcount]
  · refine ⟨hsepA, hsepB, ?_, ?_, ?_, ?_⟩
    · rw [hsepA]
      intro hcon
      have : (-(3/5) : ℝ) = 0 := congrArg Vec3.x hcon
      norm_num at this
    · rw [hsepA, hsubAB]
      show (0:ℝ) < (-(3/5)) * (-1) + 0 * 0 + 0 * 0
      norm_num
    · rw [hsepB]
      intro hcon
      have : ((3:ℝ)/5) = 0 := congrArg Vec3.x hcon
      norm_num at this
    · rw [hsepB, hsubBA]
      show (0:ℝ) < (3/5) * 1 + 0 * 0 + 0 * 0
      norm_num

/-- Witness for C5 at a concrete input: a live neighbour at distance 3
(`≥ 2.5`) contributes exactly nothing to `eA`'s separation, and with an
empty roster the heading degenerates to the bare seek vector. -/
theorem claim_C5_witness :
    Enemy.separation 0 eA ([] ++ [(1, Enemy.spawn ⟨3, 0, 0⟩)]) =
      Enemy.separation 0 eA [] ∧
    Enemy.heading 0 eA ⟨0, 0, 10⟩ [] =
      (Vec3.sub ⟨0, 0, 10⟩ eA.position).normalize := by
  have hd3 : eA.position.distanceTo (Enemy.spawn ⟨3, 0, 0⟩).position = 3 := by
    show Vec3.length (Vec3.sub ⟨0, 0, 0⟩ ⟨3, 0, 0⟩) = 3
    rw [show Vec3.sub ⟨0, 0, 0⟩ ⟨3, 0, 0⟩ = (⟨-3, 0, 0⟩ : Vec3) from by simp [Vec3.sub],
      Vec3.length_xaxis]
    norm_num
  constructor
  · exact claim_C5.2.1 0 eA [] 1 (Enemy.spawn ⟨3, 0, 0⟩) (by rw [hd3]; norm_num)
  · exact (claim_C5.2.2.1 0 eA ⟨0, 0, 10⟩ []).1 rfl

/-! ## C3: attack cone resolution -/

theorem attackHitOne_fst (pp fwd : Vec3) (e : Enemy) :
    (attackHitOne pp fwd e).1 = if hitCond pp fwd e then e.takeDamage else e := by
  unfold attackHitOne hitCond
  by_cases hd : e.isDead = true
  · rw [if_pos hd, if_neg (by simp [hd])]
  · have hd' : e.isDead = false := by simpa using hd
    rw [if_neg hd]
    dsimp only
    by_cases hr : pp.distanceTo e.position ≤ 4
    · rw [if_pos hr]
      by_cases ha : Real.arccos
          (max (-1) (min 1 (fwd.dot ((e.position.sub pp).normalize)))) ≤
            Real.pi / 2 / 2
      · rw [if_pos ha, if_pos ⟨hd', hr, ha⟩]
      · rw [if_neg ha, if_neg (by rintro ⟨h1, h2, hcon⟩; exact ha hcon)]
    · rw [if_neg hr, if_neg (by rintro ⟨h1, hcon, h2⟩; exact hr hcon)]

theorem checkAttackHit_fst (p : Player) (es : List Enemy) :
    (p.checkAttackHit es).1 =
      es.map (fun e =>
        if hitCond p.position ((yawApply p.rotY ⟨0, 0, -1⟩).normalize) e
        then e.takeDamage else e) := by
  unfold Player.checkAttackHit
  dsimp only
  rw [List.map_map]
  apply List.map_congr_left
  intro e he
  show (attackHitOne p.position ((yawApply p.rotY ⟨0, 0, -1⟩).normalize) e).1 = _
  exact attackHitOne_fst p.position ((yawApply p.rotY ⟨0, 0, -1⟩).normalize) e

theorem enemyTakeDamage_hp (e : Enemy) (h : e.isDead = false) :
    (Enemy.takeDamage e).hp = e.hp - 1 := by
  unfold Enemy.takeDamage
  rw [if_neg (by simp [h])]
  dsimp only
  split_ifs <;> rfl

/-- The player who has just entered the `Attack` state at the origin,
facing `-z` (yaw 0), with the model loaded. -/
def pAtk : Player := { initialPlayer with state := .Attack, mixerLoaded := true }

/-- A live loaded enemy 3 in front of `pAtk` (bearing 0°). -/
def enemyFront : Enemy := { Enemy.spawn ⟨0, 0, -3⟩ with mixerLoaded := true }

/-- A live loaded enemy at distance 3 and bearing 100° (`5π/9`) off
`pAtk`'s forward vector. -/
def enemy100 : Enemy :=
  { Enemy.spawn ⟨3 * Real.sin (5 * Real.pi / 9), 0,
      -(3 * Real.cos (5 * Real.pi / 9))⟩ with mixerLoaded := true }

theorem normalize_negz : Vec3.normalize ⟨0, 0, -1⟩ = (⟨0, 0, -1⟩ : Vec3) := by
  unfold Vec3.normalize
  rw [show Vec3.length ⟨0, 0, -1⟩ = 1 from by rw [Vec3.length_zxis]; norm_num]
  rw [if_neg (by norm_num)]
  simp [Vec3.smul]

theorem pAtk_forward : (yawApply pAtk.rotY ⟨0, 0, -1⟩).normalize = (⟨0, 0, -1⟩ : Vec3) := by
  have h1 : yawApply pAtk.rotY ⟨0, 0, -1⟩ = (⟨0, 0, -1⟩ : Vec3) := by
    show yawApply 0 ⟨0, 0, -1⟩ = _
    unfold yawApply
    simp
  rw [h1, normalize_negz]

theorem hitCond_front :
    hitCond pAtk.position ((yawApply pAtk.rotY ⟨0, 0, -1⟩).normalize) enemyFront := by
  rw [pAtk_forward]
  unfold hitCond
  refine ⟨rfl, ?_, ?_⟩
  · show (Vec3.sub ⟨0, 0, 0⟩ ⟨0, 0, -3⟩).length ≤ 4
    rw [show Vec3.sub ⟨0, 0, 0⟩ ⟨0, 0, -3⟩ = (⟨0, 0, 3⟩ : Vec3) from by simp [Vec3.sub],
      Vec3.length_zxis]
    norm_num
  · have hsub : enemyFront.position.sub pAtk.position = (⟨0, 0, -3⟩ : Vec3) := by
      show Vec3.sub ⟨0, 0, -3⟩ ⟨0, 0, 0⟩ = _
      simp [Vec3.sub]
    have hnorm : Vec3.normalize ⟨0, 0, -3⟩ = (⟨0, 0, -1⟩ : Vec3) := by
      unfold Vec3.normalize
      rw [show Vec3.length ⟨0, 0, -3⟩ = 3 from by rw [Vec3.length_zxis]; norm_num]
      rw [if_neg (by norm_num)]
      refine Vec3.ext_fields ?_ ?_ ?_ <;> simp [Vec3.smul]
    rw [hsub, hnorm]
    rw [show Vec3.dot ⟨0, 0, -1⟩ ⟨0, 0, -1⟩ = 1 from by simp [Vec3.dot]]
    rw [show max (-1 : ℝ) (min 1 1) = 1 from by norm_num]
    rw [Real.arccos_one]
    positivity

theorem hitCond_100 :
    ¬ hitCond pAtk.position ((yawApply pAtk.rotY ⟨0, 0, -1⟩).normalize) enemy100 := by
  rw [pAtk_forward]
  unfold hitCond
  rintro ⟨hlive, hdist, hangle⟩
  set θ : ℝ := 5 * Real.pi / 9 with hθ
  have hsc := Real.sin_sq_add_cos_sq θ
  have hsub : enemy100.position.sub pAtk.position =
      (⟨3 * Real.sin θ, 0, -(3 * Real.cos θ)⟩ : Vec3) := by
    show Vec3.sub ⟨3 * Real.sin θ, 0, -(3 * Real.cos θ)⟩ ⟨0, 0, 0⟩ = _
    simp [Vec3.sub]
  have hlen : Vec3.length ⟨3 * Real.sin θ, 0, -(3 * Real.cos θ)⟩ = 3 := by
    unfold Vec3.length
    rw [show (3 * Real.sin θ) ^ 2 + (0:ℝ) ^ 2 + (-(3 * Real.cos θ)) ^ 2 = 9 from by
      nlinarith [hsc]]
    rw [show (9:ℝ) = 3 ^ 2 from by norm_num, Real.sqrt_sq (by norm_num : (0:ℝ) ≤ 3)]
  have hnorm : Vec3.normalize ⟨3 * Real.sin θ, 0, -(3 * Real.cos θ)⟩ =
      (⟨Real.sin θ, 0, -(Real.cos θ)⟩ : Vec3) := by
    unfold Vec3.normalize
    rw [hlen, if_neg (by norm_num)]
    refine Vec3.ext_fields ?_ ?_ ?_ <;> simp [Vec3.smul]
  rw [hsub, hnorm] at hangle
  rw [show Vec3.dot ⟨0, 0, -1⟩ ⟨Real.sin θ, 0, -(Real.cos θ)⟩ = Real.cos θ from by
    simp [Vec3.dot]] at hangle
  rw [show min 1 (Real.cos θ) = Real.cos θ from
    min_eq_right (Real.cos_le_one θ)] at hangle
  rw [show max (-1) (Real.cos θ) = Real.cos θ from
    max_eq_right (Real.neg_one_le_cos θ)] at hangle
  rw [Real.arccos_cos (by rw [hθ]; positivity)
    (by rw [hθ]; nlinarith [Real.pi_pos])] at hangle
  rw [hθ] at hangle
  nlinarith [Real.pi_pos, hangle]

/-- C3: one resolution pass of `checkAttackHit` damages, by exactly 1 hp,
precisely those enemies that are alive, within range 4 and inside the
±45° half-cone of the player's forward vector (every such enemy, with no
single-target limit), and leaves every other enemy unchanged; the pass
runs at most once per attack because `updateAttack` sets `hasHitAttacked`
when the window `0.1 < stateTimer < 0.3` first holds and skips the pass
once the flag is set; the attack auto-returns to `Idle` when the timer
reaches `0.5`.  The enemy 3 in front (bearing 0°) satisfies the hit
condition; the enemy at bearing 100° does not. -/
theorem claim_C3 :
    (∀ (p : Player) (es : List Enemy),
        (p.checkAttackHit es).1 =
          es.map (fun e =>
            if hitCond p.position ((yawApply p.rotY ⟨0, 0, -1⟩).normalize) e
            then e.takeDamage else e)) ∧
    (∀ (pp fwd : Vec3) (e : Enemy), hitCond pp fwd e →
        (attackHitOne pp fwd e).1.hp = e.hp - 1) ∧
    (∀ (pp fwd : Vec3) (e : Enemy), ¬ hitCond pp fwd e →
        (attackHitOne pp fwd e).1 = e) ∧
    (∀ (dt : ℝ) (es : List Enemy) (p : Player),
        (p.hasHitAttacked = false → 0.1 < p.stateTimer + dt →
          p.stateTimer + dt < 0.3 →
          (p.updateAttack dt es).1.hasHitAttacked = true ∧
          (p.updateAttack dt es).2.1 =
            (Player.checkAttackHit { p with stateTimer := p.stateTimer + dt } es).1) ∧
        (p.hasHitAttacked = true → (p.updateAttack dt es).2.1 = es) ∧
        (0.5 ≤ p.stateTimer + dt → (p.updateAttack dt es).1.state = .Idle)) ∧
    (hitCond pAtk.position ((yawApply pAtk.rotY ⟨0, 0, -1⟩).normalize) enemyFront ∧
     ¬ hitCond pAtk.position ((yawApply pAtk.rotY ⟨0, 0, -1⟩).normalize) enemy100) := by
  refine ⟨checkAttackHit_fst, ?_, ?_, ?_, hitCond_front, hitCond_100⟩
  · intro pp fwd e hc
    rw [attackHitOne_fst, if_pos hc]
    exact enemyTakeDamage_hp e hc.1
  · intro pp fwd e hc
    rw [attackHitOne_fst, if_neg hc]
  · intro dt es p
    refine ⟨?_, ?_, ?_⟩
    · intro hflag h1 h3
      unfold Player.updateAttack
      dsimp only
      have hcnd : p.hasHitAttacked = false ∧ 0.1 < p.stateTimer + dt ∧
          p.stateTimer + dt < 0.3 := ⟨hflag, h1, h3⟩
      rw [if_pos hcnd]
      dsimp only
      have hnot : ¬(0.5 ≤ p.stateTimer + dt) := by linarith
      rw [if_neg hnot]
      exact ⟨rfl, rfl⟩
    · intro hflag
      unfold Player.updateAttack
      dsimp only
      have hnc : ¬(p.hasHitAttacked = false ∧ 0.1 < p.stateTimer + dt ∧
          p.stateTimer + dt < 0.3) := by
        rw [hflag]; simp
      rw [if_neg hnc]
      dsimp only
      split_ifs <;> rfl
    · intro hend
      unfold Player.updateAttack
      dsimp only
      by_cases hcnd : p.hasHitAttacked = false ∧ 0.1 < p.stateTimer + dt ∧
          p.stateTimer + dt < 0.3
      · rw [if_pos hcnd]
        dsimp only
        rw [if_pos hend]
        unfold Player.switchState
        simp
      · rw [if_neg hcnd]
        dsimp only
        rw [if_pos hend]
        unfold Player.switchState
        simp

/-- Witness for C3 at concrete inputs: the hit pass on the single
front-bearing enemy produces exactly `takeDamage` for it (costing exactly
1 hp), the bearing-100° enemy is left unchanged, and an attack whose
timer reaches 0.5 returns to Idle. -/
theorem claim_C3_witness :
    (pAtk.checkAttackHit [enemyFront]).1 =
      [if hitCond pAtk.position ((yawApply pAtk.rotY ⟨0, 0, -1⟩).normalize) enemyFront
        then enemyFront.takeDamage else enemyFront] ∧
    (attackHitOne pAtk.position ((yawApply pAtk.rotY ⟨0, 0, -1⟩).normalize)
        enemyFront).1.hp = enemyFront.hp - 1 ∧
    (attackHitOne pAtk.position ((yawApply pAtk.rotY ⟨0, 0, -1⟩).normalize)
        enemy100).1 = enemy100 ∧
    (pAtk.updateAttack 0.5 []).1.state = .Idle := by
  refine ⟨?_, ?_, ?_, ?_⟩
  · exact claim_C3.1 pAtk [enemyFront]
  · exact claim_C3.2.1 pAtk.position ((yawApply pAtk.rotY ⟨0, 0, -1⟩).normalize)
      enemyFront claim_C3.2.2.2.2.1
  · exact claim_C3.2.2.1 pAtk.position ((yawApply pAtk.rotY ⟨0, 0, -1⟩).normalize)
      enemy100 claim_C3.2.2.2.2.2
  · exact (claim_C3.2.2.2.1 0.5 [] pAtk).2.2 (by show (0.5:ℝ) ≤ 0 + 0.5; norm_num)

/-! ## C10: a frame-delta sequence that skips the hit window -/

/-- Intent record with only the attack button pressed. -/
def attackInput : InputState :=
  { moveX := 0, moveY := 0, lookX := 0, lookY := 0,
    isAttackPressed := true, isRollPressed := false }

/-- Intent record with nothing pressed. -/
def noInput : InputState :=
  { moveX := 0, moveY := 0, lookX := 0, lookY := 0,
    isAttackPressed := false, isRollPressed := false }

/-- The initial player once its model has loaded. -/
def p10 : Player := { initialPlayer with mixerLoaded := true }

/-- C10: with `enemyFront` alive at distance 3 dead ahead (inside the
range-4, ±45° hit condition for the whole attack — the attacker never
moves), pressing attack and then updating with `dt = 0.3` followed by
`dt = 0.2` completes the entire Attack state (ending back in `Idle`)
without ever satisfying the open window `0.1 < stateTimer < 0.3`:
`checkAttackHit` never runs, the roster is returned untouched and no hit
event fires, so the enemy still has its full 1 hp. -/
theorem claim_C10 :
    Player.update 0.1 attackInput ⟨0, 0, 1⟩ emptyWorld [enemyFront] p10 =
      (pAtk, [enemyFront], []) ∧
    Player.update 0.3 noInput ⟨0, 0, 1⟩ emptyWorld [enemyFront] pAtk =
      ({ pAtk with stateTimer := 0 + 0.3 }, [enemyFront], []) ∧
    Player.update 0.2 noInput ⟨0, 0, 1⟩ emptyWorld [enemyFront]
        { pAtk with stateTimer := 0 + 0.3 } = (p10, [enemyFront], []) ∧
    pAtk.state = .Attack ∧ pAtk.hasHitAttacked = false ∧
    ({ pAtk with stateTimer := 0 + 0.3 } : Player).hasHitAttacked = false ∧
    p10.state = .Idle ∧ enemyFront.isDead = false ∧ enemyFront.hp = 1 ∧
    hitCond pAtk.position ((yawApply pAtk.rotY ⟨0, 0, -1⟩).normalize) enemyFront := by
  have h1 : Player.update 0.1 attackInput ⟨0, 0, 1⟩ emptyWorld [enemyFront] p10 =
      (pAtk, [enemyFront], []) := by
    unfold Player.update
    rw [if_neg (show ¬(p10.mixerLoaded = false) from by simp [p10, initialPlayer])]
    rw [updateInvincibility_of_not_invincible 0.1 p10 rfl]
    rw [if_neg (show ¬(p10.state = .Dead) from by simp [p10, initialPlayer])]
    show (p10.updateIdle attackInput, [enemyFront], []) = _
    unfold Player.updateIdle
    rw [if_pos (show attackInput.isAttackPressed = true from rfl)]
    rfl
  have h2 : Player.update 0.3 noInput ⟨0, 0, 1⟩ emptyWorld [enemyFront] pAtk =
      ({ pAtk with stateTimer := 0 + 0.3 }, [enemyFront], []) := by
    unfold Player.update
    rw [if_neg (show ¬(pAtk.mixerLoaded = false) from by simp [pAtk, initialPlayer])]
    rw [updateInvincibility_of_not_invincible 0.3 pAtk rfl]
    rw [if_neg (show ¬(pAtk.state = .Dead) from by simp [pAtk, initialPlayer])]
    show pAtk.updateAttack 0.3 [enemyFront] = _
    unfold Player.updateAttack
    dsimp only
    have hst : pAtk.stateTimer = 0 := rfl
    have hnc : ¬(pAtk.hasHitAttacked = false ∧ 0.1 < pAtk.stateTimer + 0.3 ∧
        pAtk.stateTimer + 0.3 < 0.3) := by
      rintro ⟨hfl, hlo, hhi⟩
      rw [hst] at hhi
      norm_num at hhi
    rw [if_neg hnc]
    dsimp only
    have hn5 : ¬(0.5 ≤ pAtk.stateTimer + 0.3) := by
      rw [hst]; norm_num
    rw [if_neg hn5]
    rw [hst]
  have h3 : Player.update 0.2 noInput ⟨0, 0, 1⟩ emptyWorld [enemyFront]
      { pAtk with stateTimer := 0 + 0.3 } = (p10, [enemyFront], []) := by
    unfold Player.update
    rw [if_neg (show ¬(({ pAtk with stateTimer := 0 + 0.3 } : Player).mixerLoaded = false)
      from by simp [pAtk, initialPlayer])]
    rw [updateInvincibility_of_not_invincible 0.2 _ rfl]
    rw [if_neg (show ¬(({ pAtk with stateTimer := 0 + 0.3 } : Player).state = .Dead)
      from by simp [pAtk, initialPlayer])]
    show ({ pAtk with stateTimer := 0 + 0.3 } : Player).updateAttack 0.2 [enemyFront] = _
    unfold Player.updateAttack
    dsimp only
    have hnc : ¬(({ pAtk with stateTimer := 0 + 0.3 } : Player).hasHitAttacked = false ∧
        0.1 < ({ pAtk with stateTimer := 0 + 0.3 } : Player).stateTimer + 0.2 ∧
        ({ pAtk with stateTimer := 0 + 0.3 } : Player).stateTimer + 0.2 < 0.3) := by
      rintro ⟨hfl, hlo, hhi⟩
      have hst : ({ pAtk with stateTimer := 0 + 0.3 } : Player).stateTimer = 0 + 0.3 := rfl
      rw [hst] at hhi
      norm_num at hhi
    rw [if_neg hnc]
    dsimp only
    have h5 : (0.5 : ℝ) ≤ ({ pAtk with stateTimer := 0 + 0.3 } : Player).stateTimer + 0.2 := by
      have hst : ({ pAtk with stateTimer := 0 + 0.3 } : Player).stateTimer = 0 + 0.3 := rfl
      rw [hst]; norm_num
    rw [if_pos h5]
    unfold Player.switchState
    rw [if_neg (show ¬(PState.Idle = PState.Attack) from by simp)]
    refine Prod.ext ?_ rfl
    show ({ pAtk with stateTimer := 0, state := PState.Idle } : Player) = p10
    rfl
  exact ⟨h1, h2, h3, rfl, rfl, rfl, rfl, rfl, rfl, hitCond_front⟩

/-! ## Roll kinematics (C6, C8) -/

/-- Player state `t` seconds into an unobstructed roll that started at the
origin facing `+z`. -/
def rollAt (t : ℝ) : Player :=
  { initialPlayer with
    mixerLoaded := true
    state := PState.Roll
    moveDirection := ⟨0, 0, 1⟩
    stateTimer := t
    position := ⟨0, 0, 20 * t⟩
    childRotX := 15 * t }

/-- Player state after such a roll has finished (back in `Idle`), having
travelled `z` along `+z`. -/
def rollDone (z : ℝ) : Player :=
  { initialPlayer with
    mixerLoaded := true
    state := PState.Idle
    stateTimer := 0
    moveDirection := ⟨0, 0, 1⟩
    position := ⟨0, 0, z⟩
    childRotX := 0 }

theorem checkCollision_empty (p : Player) (v : Vec3) :
    Player.checkCollision emptyWorld p v = false := rfl

theorem rollAt_update (t dt : ℝ) (input : InputState) (cam : Vec3)
    (es : List Enemy) :
    Player.update dt input cam emptyWorld es (rollAt t) =
      (if 0.5 ≤ t + dt then rollDone (20 * (t + dt)) else rollAt (t + dt),
       es, []) := by
  unfold Player.update
  rw [if_neg (show ¬((rollAt t).mixerLoaded = false) from by simp [rollAt, initialPlayer])]
  rw [updateInvincibility_of_not_invincible dt _ rfl]
  rw [if_neg (show ¬((rollAt t).state = .Dead) from by simp [rollAt, initialPlayer])]
  show ((rollAt t).updateRoll dt emptyWorld, es, []) = _
  unfold Player.updateRoll
  dsimp only
  rw [if_pos (checkCollision_empty _ _)]
  dsimp only [rollAt, initialPlayer]
  simp only [eq_self_iff_true, if_true]
  have hpos : ({ x := 0, y := 0, z := 20 * t } : Vec3).addScaled ⟨0, 0, 1⟩ (20 * dt) =
      (⟨0, 0, 20 * (t + dt)⟩ : Vec3) := by
    simp only [Vec3.addScaled, Vec3.add, Vec3.smul, Vec3.mk.injEq]
    norm_num
    ring
  have hrot : 15 * t + 15 * dt = 15 * (t + dt) := by ring
  rw [hpos]
  by_cases h5 : 0.5 ≤ t + dt
  · rw [if_pos h5, if_pos h5]
    rfl
  · rw [if_neg h5, if_neg h5, hrot]

/-- The frame sequence of a roll: one `Player.update` per delta, with no
input, no obstacles and no enemies. -/
def rollFrames (dts : List ℝ) : List Frame :=
  dts.map (fun d => ⟨d, noInput, ⟨0, 0, 1⟩, emptyWorld, []⟩)

theorem rollFrames_run_lt (dts : List ℝ) : ∀ t : ℝ,
    (∀ d ∈ dts, 0 < d) → t + dts.sum < 0.5 →
    runFrames (rollFrames dts) (rollAt t) = rollAt (t + dts.sum) := by
  induction dts with
  | nil =>
      intro t hpos hlt
      simp only [rollFrames, List.map_nil, runFrames, List.foldl_nil, List.sum_nil]
      rw [add_zero]
  | cons d ds ih =>
      intro t hpos hlt
      have hd : 0 < d := hpos d (List.mem_cons_self d ds)
      have hds : ∀ x ∈ ds, 0 < x := fun x hx => hpos x (List.mem_cons_of_mem d hx)
      have hsum : 0 ≤ ds.sum :=
        List.sum_nonneg (fun x hx => le_of_lt (hds x hx))
      have hlt' : t + d + ds.sum < 0.5 := by
        have : (d :: ds).sum = d + ds.sum := List.sum_cons
        rw [this] at hlt
        linarith
      have hstep : runFrames (rollFrames (d :: ds)) (rollAt t) =
          runFrames (rollFrames ds) (rollAt (t + d)) := by
        show runFrames (rollFrames ds)
            (Player.update d noInput ⟨0, 0, 1⟩ emptyWorld [] (rollAt t)).1 = _
        rw [rollAt_update t d noInput ⟨0, 0, 1⟩ []]
        rw [show ((if 0.5 ≤ t + d then rollDone (20 * (t + d)) else rollAt (t + d),
            ([] : List Enemy), ([] : List GEvent))).1 =
          (if 0.5 ≤ t + d then rollDone (20 * (t + d)) else rollAt (t + d)) from rfl]
        rw [if_neg (show ¬((0.5:ℝ) ≤ t + d) from by linarith)]
      rw [hstep, ih (t + d) hds hlt']
      rw [show (d :: ds).sum = d + ds.sum from List.sum_cons]
      rw [show t + d + ds.sum = t + (d + ds.sum) from by ring]

theorem rollFrames_run_complete (dts : List ℝ) : ∀ t : ℝ,
    (∀ d ∈ dts, 0 < d) → dts ≠ [] → t + dts.sum = 0.5 →
    runFrames (rollFrames dts) (rollAt t) = rollDone 10 := by
  induction dts with
  | nil => intro t hpos hne hsum; exact absurd rfl hne
  | cons d ds ih =>
      intro t hpos hne hsum
      have hd : 0 < d := hpos d (List.mem_cons_self d ds)
      have hds : ∀ x ∈ ds, 0 < x := fun x hx => hpos x (List.mem_cons_of_mem d hx)
      have hsum' : t + (d + ds.sum) = 0.5 := by
        rw [show (d :: ds).sum = d + ds.sum from List.sum_cons] at hsum
        exact hsum
      by_cases hnil : ds = []
      · subst hnil
        have htd : t + d = 0.5 := by
          simp only [List.sum_nil, add_zero] at hsum'
          exact hsum'
        show runFrames (rollFrames [])
            (Player.update d noInput ⟨0, 0, 1⟩ emptyWorld [] (rollAt t)).1 = _
        rw [rollAt_update t d noInput ⟨0, 0, 1⟩ []]
        simp only [rollFrames, List.map_nil, runFrames, List.foldl_nil]
        rw [if_pos (show (0.5:ℝ) ≤ t + d from le_of_eq htd.symm)]
        rw [htd]
        norm_num
      · have hpos' : 0 < ds.sum := List.sum_pos ds hds hnil
        have hlt : t + d < 0.5 := by linarith
        have hstep : runFrames (rollFrames (d :: ds)) (rollAt t) =
            runFrames (rollFrames ds) (rollAt (t + d)) := by
          show runFrames (rollFrames ds)
              (Player.update d noInput ⟨0, 0, 1⟩ emptyWorld [] (rollAt t)).1 = _
          rw [rollAt_update t d noInput ⟨0, 0, 1⟩ []]
          rw [show ((if 0.5 ≤ t + d then rollDone (20 * (t + d)) else rollAt (t + d),
              ([] : List Enemy), ([] : List GEvent))).1 =
            (if 0.5 ≤ t + d then rollDone (20 * (t + d)) else rollAt (t + d)) from rfl]
          rw [if_neg (not_le.mpr hlt)]
        rw [hstep]
        exact ih (t + d) hds hnil (by linarith)

/-- C8: a roll entered at the origin facing `+z` (captured direction
`(0,0,1)`), driven by any sequence of strictly positive frame deltas
summing to exactly 0.5 s with no obstacles, stays in `Roll` for the whole
sequence, ends back in `Idle`, and the total displacement is exactly
`20 · 0.5 = 10` world units along the captured direction; after any
prefix of those frames summing to 0.3 s the player is still rolling, so a
`takeDamage` call fired there leaves hp unchanged. -/
theorem claim_C8 :
    ∀ dts : List ℝ, (∀ d ∈ dts, 0 < d) → dts.sum = 0.5 →
      ((rollAt 0).moveDirection = ⟨0, 0, 1⟩ ∧
       (rollAt 0).state = .Roll ∧ (rollAt 0).stateTimer = 0) ∧
      runFrames (rollFrames dts) (rollAt 0) = rollDone 10 ∧
      (rollDone 10).position = ⟨0, 0, 10⟩ ∧ (rollDone 10).state = .Idle ∧
      (∀ as bs : List ℝ, dts = as ++ bs → as.sum = 0.3 →
        (runFrames (rollFrames as) (rollAt 0)).state = .Roll ∧
        ∀ b : ℝ, ((runFrames (rollFrames as) (rollAt 0)).takeDamage b).hp =
          (runFrames (rollFrames as) (rollAt 0)).hp) := by
  intro dts hpos hsum
  have hne : dts ≠ [] := by
    intro hcon
    rw [hcon] at hsum
    simp at hsum
    norm_num at hsum
  refine ⟨⟨rfl, rfl, rfl⟩, ?_, rfl, rfl, ?_⟩
  · exact rollFrames_run_complete dts 0 hpos hne (by rw [hsum]; norm_num)
  · intro as bs hsplit h03
    have hposas : ∀ d ∈ as, 0 < d := by
      intro d hd
      exact hpos d (by rw [hsplit]; exact List.mem_append_left bs hd)
    have hrun : runFrames (rollFrames as) (rollAt 0) = rollAt (0 + as.sum) := by
      refine rollFrames_run_lt as 0 hposas ?_
      rw [h03]; norm_num
    have hstate : (runFrames (rollFrames as) (rollAt 0)).state = .Roll := by
      rw [hrun]; rfl
    refine ⟨hstate, ?_⟩
    intro b
    rw [takeDamage_noop _ b (Or.inr (Or.inr hstate))]

/-- Witness for C8 at a concrete input: the delta sequence `[0.3, 0.2]`
(positive, summing to 0.5) completes the roll with a net displacement of
10 along `+z`, and after the `[0.3]` prefix the player is still in
`Roll`. -/
theorem claim_C8_witness :
    runFrames (rollFrames [0.3, 0.2]) (rollAt 0) = rollDone 10 ∧
    (runFrames (rollFrames [0.3]) (rollAt 0)).state = .Roll := by
  have h := claim_C8 [0.3, 0.2]
    (by
      intro d hd
      rcases List.mem_cons.mp hd with h1 | h1
      · rw [h1]; norm_num
      · rcases List.mem_cons.mp h1 with h2 | h2
        · rw [h2]; norm_num
        · cases h2)
    (by norm_num)
  refine ⟨h.2.1, ?_⟩
  exact (h.2.2.2.2 [0.3] [0.2] rfl (by norm_num)).1

/-! ## C6: entities before their model has loaded -/

/-- A mid-roll player whose model has not finished loading. -/
def pUnloaded : Player := { rollAt 0 with mixerLoaded := false }

/-- Counterexample to C6 as stated: for a player mid-roll whose model has
not loaded, the claim says the simulation state still advances (the roll
would move the position by `20 · 0.1 = 2` along the captured direction,
as the loaded copy of the same state demonstrates), but
`if (!this.mixer) return` makes the whole update a no-op: position and
state timer are exactly unchanged. -/
theorem claim_C6_counterexample :
    (Player.update 0.1 noInput ⟨0, 0, 1⟩ emptyWorld [] pUnloaded).1.position =
      pUnloaded.position ∧
    (Player.update 0.1 noInput ⟨0, 0, 1⟩ emptyWorld [] pUnloaded).1.stateTimer =
      pUnloaded.stateTimer ∧
    pUnloaded.state = .Roll ∧
    (Player.update 0.1 noInput ⟨0, 0, 1⟩ emptyWorld [] (rollAt 0)).1.position ≠
      (rollAt 0).position := by
  have hid : Player.update 0.1 noInput ⟨0, 0, 1⟩ emptyWorld [] pUnloaded =
      (pUnloaded, [], []) := by
    unfold Player.update
    rw [if_pos (show pUnloaded.mixerLoaded = false from rfl)]
  have hmove : (Player.update 0.1 noInput ⟨0, 0, 1⟩ emptyWorld [] (rollAt 0)).1 =
      rollAt (0 + 0.1) := by
    rw [rollAt_update 0 0.1 noInput ⟨0, 0, 1⟩ []]
    rw [show ((if (0.5:ℝ) ≤ 0 + 0.1 then rollDone (20 * (0 + 0.1)) else rollAt (0 + 0.1),
        ([] : List Enemy), ([] : List GEvent))).1 =
      (if (0.5:ℝ) ≤ 0 + 0.1 then rollDone (20 * (0 + 0.1)) else rollAt (0 + 0.1)) from rfl]
    rw [if_neg (by norm_num)]
  refine ⟨by rw [hid], by rw [hid], rfl, ?_⟩
  rw [hmove]
  intro hcon
  have hz : 20 * (0 + 0.1) = 20 * (0:ℝ) := congrArg Vec3.z hcon
  norm_num at hz

/-- C6 (amended): while an entity's model has not finished loading
(`mixer` not assigned), its `update` skips the *entire* per-frame body —
visuals and simulation state alike.  The call is a pure no-op (position,
hp, state machine and timers unchanged, no enemy mutated, no event
emitted), it cannot crash, and since each entity is guarded
independently, other entities are unaffected. -/
theorem claim_C6 :
    (∀ (dt : ℝ) (input : InputState) (cam : Vec3) (w : World)
        (es : List Enemy) (p : Player), p.mixerLoaded = false →
        Player.update dt input cam w es p = (p, es, [])) ∧
    (∀ (dt : ℝ) (playerPos : Vec3) (all : List (ℕ × Enemy)) (i : ℕ)
        (e : Enemy), e.mixerLoaded = false →
        Enemy.update dt playerPos all i e = e) := by
  constructor
  · intro dt input cam w es p hm
    unfold Player.update
    rw [if_pos hm]
  · intro dt playerPos all i e hm
    unfold Enemy.update
    rw [if_pos hm]

/-- Witness for C6 at a concrete input: the unloaded mid-roll player and
a freshly spawned (unloaded) enemy are both left exactly unchanged by an
update. -/
theorem claim_C6_witness :
    Player.update 0.1 noInput ⟨0, 0, 1⟩ emptyWorld [] pUnloaded =
      (pUnloaded, [], []) ∧
    Enemy.update 0.1 ⟨0, 0, 5⟩ [(0, Enemy.spawn ⟨0, 0, 0⟩)] 0
      (Enemy.spawn ⟨0, 0, 0⟩) = Enemy.spawn ⟨0, 0, 0⟩ := by
  exact ⟨claim_C6.1 0.1 noInput ⟨0, 0, 1⟩ emptyWorld [] pUnloaded rfl,
    claim_C6.2 0.1 ⟨0, 0, 5⟩ [(0, Enemy.spawn ⟨0, 0, 0⟩)] 0
      (Enemy.spawn ⟨0, 0, 0⟩) rfl⟩

/-! ## C7: the game-over latch -/

/-- A frame environment with nothing held. -/
def env0 : FrameEnv :=
  { keyW := false, keyS := false, keyA := false, keyD := false,
    keySpace := false, camForward := ⟨0, 0, 1⟩ }

/-- A latched game-over state. -/
def gOver : GameState :=
  { player := initialPlayer, enemies := [], score := 0, isGameOver := true,
    input := noInput, world := emptyWorld }

/-- C7: once `isGameOver` is set, `Game.update` returns at the top, so
the whole game state — player, enemies, score, input — is exactly
unchanged on every subsequent frame (and repeating the frozen update
yields the same state); and whenever a frame ends with the player's hp at
or below 0, that frame latches `isGameOver = true`. -/
theorem claim_C7 :
    (∀ (dt : ℝ) (env : FrameEnv) (g : GameState), g.isGameOver = true →
        gameUpdate dt env g = g) ∧
    (∀ (dt : ℝ) (env : FrameEnv) (g : GameState),
        (gameUpdate dt env g).player.hp ≤ 0 →
        (gameUpdate dt env g).isGameOver = true) ∧
    (∀ (dt dt' : ℝ) (env env' : FrameEnv) (g : GameState), g.isGameOver = true →
        gameUpdate dt' env' (gameUpdate dt env g) = g) := by
  have hfrozen : ∀ (dt : ℝ) (env : FrameEnv) (g : GameState),
      g.isGameOver = true → gameUpdate dt env g = g := by
    intro dt env g hover
    unfold gameUpdate gameStep
    rw [if_pos (by rw [hover])]
  refine ⟨hfrozen, ?_, ?_⟩
  · intro dt env g
    unfold gameUpdate gameStep
    by_cases hover : g.isGameOver = true
    · rw [if_pos (by rw [hover])]
      intro hcon
      exact hover
    · rw [if_neg (by simpa using hover)]
      dsimp only
      intro hhp
      rw [if_pos hhp]
  · intro dt dt' env env' g hover
    rw [hfrozen dt env g hover, hfrozen dt' env' g hover]

/-- Witness for C7 at a concrete input: a latched state is exactly
preserved by one more frame, and by two. -/
theorem claim_C7_witness :
    gameUpdate 0.1 env0 gOver = gOver ∧
    gameUpdate 0.2 env0 (gameUpdate 0.1 env0 gOver) = gOver := by
  exact ⟨claim_C7.1 0.1 env0 gOver rfl, claim_C7.2.2 0.1 0.2 env0 env0 gOver rfl⟩

/-! ## C9: per-frame contact damage -/

theorem enemyLoop_hp_inv (dt : ℝ) (h0 : ℝ) (hh : 1 < h0) :
    ∀ (rest done : List Enemy) (p : Player) (evs : List GEvent),
      (p.hp = h0 ∨ (p.hp = h0 - 1 ∧ p.isInvincible = true)) →
      ((enemyLoopAux dt done rest p evs).2.1.hp = h0 ∨
       ((enemyLoopAux dt done rest p evs).2.1.hp = h0 - 1 ∧
        (enemyLoopAux dt done rest p evs).2.1.isInvincible = true)) := by
  intro rest
  induction rest with
  | nil =>
      intro done p evs hinv
      exact hinv
  | cons e rest ih =>
      intro done p evs hinv
      show ((enemyLoopAux dt (done ++ [_]) rest _ _).2.1.hp = h0 ∨ _)
      apply ih
      set e' := Enemy.update dt p.position ((done ++ e :: rest).enum) done.length e
      by_cases hhit : e'.isDead = false ∧ p.position.distanceTo e'.position < 1.5
      · rw [if_pos hhit]
        rcases hinv with hL | hR
        · by_cases hnoop : p.isInvincible = true ∨ p.state = .Dead ∨ p.state = .Roll
          · rw [takeDamage_noop p 1 hnoop]
            exact Or.inl hL
          · rw [takeDamage_nonfatal p 1 hnoop (by rw [hL]; linarith)]
            exact Or.inr ⟨by rw [hL], rfl⟩
        · rw [takeDamage_noop p 1 (Or.inl hR.2)]
          exact Or.inr hR
      · rw [if_neg hhit]
        exact hinv

/-- C9: (i) each iteration of the orchestrator's enemy loop calls
`player.takeDamage(1)` — and records a `playerDamage` event — exactly
when the just-updated enemy is alive and strictly within 1.5 of the
player, every frame, with no per-enemy cooldown; (ii) as a consequence,
a frame of `Game.update` starting with hp above 1 costs the player at
most 1 hp however many enemies are in contact, because the first
non-fatal hit makes the player invincible synchronously. -/
theorem claim_C9 :
    (∀ (dt : ℝ) (done : List Enemy) (e : Enemy) (rest : List Enemy)
        (p : Player) (evs : List GEvent),
        enemyLoopAux dt done (e :: rest) p evs =
          (let hit := (Enemy.update dt p.position ((done ++ e :: rest).enum)
              done.length e).isDead = false ∧
            p.position.distanceTo (Enemy.update dt p.position
              ((done ++ e :: rest).enum) done.length e).position < 1.5
           enemyLoopAux dt
            (done ++ [Enemy.update dt p.position ((done ++ e :: rest).enum)
              done.length e]) rest
            (if hit then p.takeDamage 1 else p)
            (evs ++ (if hit then [GEvent.playerDamage done.length] else [])))) ∧
    (∀ (dt : ℝ) (env : FrameEnv) (g : GameState), 1 < g.player.hp →
        g.player.hp - 1 ≤ (gameUpdate dt env g).player.hp ∧
        (gameUpdate dt env g).player.hp ≤ g.player.hp) := by
  constructor
  · intro dt done e rest p evs
    rfl
  · intro dt env g hh
    unfold gameUpdate gameStep
    by_cases hover : g.isGameOver = true
    · rw [if_pos (by rw [hover])]
      constructor <;> [linarith; exact le_refl _]
    · rw [if_neg (by simpa using hover)]
      dsimp only
      rw [update_hp]
      have hinv := enemyLoop_hp_inv dt g.player.hp hh g.enemies [] g.player []
        (Or.inl rfl)
      rcases hinv with hL | hR
      · rw [hL]
        constructor <;> linarith
      · rw [hR.1]
        constructor <;> linarith

/-- A running game state: loaded player at full hp, one enemy ahead. -/
def gPlay : GameState :=
  { player := p10, enemies := [enemyFront], score := 0, isGameOver := false,
    input := noInput, world := emptyWorld }

/-- Witness for C9 at a concrete input: one frame from the full-hp
running state costs at most 1 hp. -/
theorem claim_C9_witness :
    gPlay.player.hp - 1 ≤ (gameUpdate 0.1 env0 gPlay).player.hp ∧
    (gameUpdate 0.1 env0 gPlay).player.hp ≤ gPlay.player.hp := by
  exact claim_C9.2 0.1 env0 gPlay (by show (1:ℝ) < 5; norm_num)

end

end TPS
